import Mathlib

/-!
Verification of the round-settlement core of the card-game money calculator.

The repository contains three calculator components sharing the same
session/ledger mechanics:
- `TienLenCalculator` (Ladder variant, `src/components/Counter.tsx`),
- `KachTeCalculator` (Pot variant, `src/unnamed/part_007`),
- `XiDachCalculator` (Banker variant, `src/unnamed/part_007`).

The shared mechanics (round history append/replace, undo, reset) are
modelled once over an abstract player/setup type in namespace `Game`;
each variant instantiates it with its own `Player`/`GameSetup` data and
its own `calculateMoney` settlement, translated from the source.
Timestamps (`new Date().toISOString()` in the source) are abstracted as a
`now : Nat` parameter.  JavaScript numbers holding money are modelled as
`Int` (all arithmetic in the source is integral).
-/

/-! ## Definitions (shallow embedding of the source) -/

namespace Game

/-- A settled round: `id`, deep-copied `players` snapshot, the `setup`
snapshot used to compute it, and a `timestamp` (all three variants use the
same `GameRound` shape). -/
structure Round (π σ : Type) where
  id : Nat
  players : List π
  setup : σ
  timestamp : Nat
deriving DecidableEq, Repr

/-- Session state common to all three calculators: the optional current
setup, the in-progress players, the round history (ledger) and the
`isCalculated` flag. -/
structure GState (π σ : Type) where
  setup : Option σ
  players : List π
  gameHistory : List (Round π σ)
  isCalculated : Bool
deriving DecidableEq, Repr

/-- Source `[...prev.slice(0, -1), { ...last, players, timestamp }]`: replace the
last round's players and timestamp in place, keeping its id and setup. -/
def replaceLast (ps : List π) (now : Nat) : List (Round π σ) → List (Round π σ)
  | [] => []
  | [r] => [{ r with players := ps, timestamp := now }]
  | r :: r' :: rs => r :: replaceLast ps now (r' :: rs)

/-- The tail of every variant's `calculateMoney`: if `isCalculated` is set
and the history is non-empty, the last round is replaced in place;
otherwise a new round with `id = gameHistory.length + 1` is appended.  The
current players are set to the settled players and `isCalculated` to
true. -/
def commitRound (now : Nat) (setup : σ) (ps : List π) (s : GState π σ) : GState π σ :=
  if s.isCalculated ∧ 0 < s.gameHistory.length then
    { s with players := ps,
             gameHistory := replaceLast ps now s.gameHistory,
             isCalculated := true }
  else
    { s with players := ps,
             gameHistory := s.gameHistory ++
               [{ id := s.gameHistory.length + 1, players := ps, setup := setup,
                  timestamp := now }],
             isCalculated := true }

/-- The `handleUndo` handler, identical in the three calculators up to the
variant-specific blanking function applied when the history becomes
empty: drop the last round; restore players/setup from the new last round
when one exists, otherwise blank the in-progress players. -/
def undo (blank : π → π) (s : GState π σ) : GState π σ :=
  if s.gameHistory.length = 0 then s
  else
    let previousHistory := s.gameHistory.dropLast
    match previousHistory.getLast? with
    | some lastRound =>
        { s with gameHistory := previousHistory,
                 players := lastRound.players,
                 setup := some lastRound.setup,
                 isCalculated := false }
    | none =>
        { s with gameHistory := previousHistory,
                 players := s.players.map blank,
                 isCalculated := false }

/-- The `resetGame` handler, identical in the three calculators: clears setup,
players, the game history and the calculated flag. -/
def resetGame (_ : GState π σ) : GState π σ :=
  { setup := none, players := [], gameHistory := [], isCalculated := false }

end Game

namespace TienLen

/-- Ladder positions: first, second, third, last. -/
inductive Position
  | nhat
  | nhi
  | ba
  | bet
deriving DecidableEq, Repr

/-- The two Ladder payout rules. -/
inductive Rule
  | nhatAnHet
  | nhatAnBetNhiAnBa
deriving DecidableEq, Repr

/-- The `Player` interface of `TienLenCalculator`. -/
structure Player where
  id : Nat
  name : String
  position : Option Position
  money : Int
  adjustments : Int
deriving DecidableEq, Repr

/-- The `GameSetup` interface of `TienLenCalculator`; `betLevel1`/`betLevel2` are the
optional tiered bet levels. -/
structure GameSetup where
  numberOfPlayers : Nat
  betAmount : Int
  rule : Rule
  betLevel1 : Option Int
  betLevel2 : Option Int
deriving DecidableEq, Repr

abbrev Round := Game.Round Player GameSetup

abbrev State := Game.GState Player GameSetup

/-- JavaScript truthiness of an optional number: `undefined` and `0` are
falsy. -/
def truthy : Option Int → Bool
  | none => false
  | some x => x != 0

/-- Source `newPlayers.find(pred)` followed by an in-place mutation of the found
player: update the first element satisfying `pred`. -/
def updateFirst (pred : Player → Bool) (f : Player → Player) : List Player → List Player
  | [] => []
  | p :: ps => if pred p then f p :: ps else p :: updateFirst pred f ps

/-- The rule-dependent base assignment of `calculateMoney`
(`src/components/Counter.tsx`): under `nhat-an-het` the `nhat` player is
assigned `betAmount * (numberOfPlayers - 1)` and every other player
`-betAmount`; under `nhat-an-bet-nhi-an-ba` (guarded by truthiness of both
bet levels) the first players found at positions `bet`, `ba`, `nhat`,
`nhi` are assigned `-level1`, `-level2`, `+level1`, `+level2`
respectively, all other money being left untouched. -/
def applyRule (setup : GameSetup) (players : List Player) : List Player :=
  match setup.rule with
  | .nhatAnHet =>
      let totalDeducted := setup.betAmount * ((setup.numberOfPlayers : Int) - 1)
      players.map fun p =>
        if p.position = some .nhat then { p with money := totalDeducted }
        else { p with money := -setup.betAmount }
  | .nhatAnBetNhiAnBa =>
      if truthy setup.betLevel1 && truthy setup.betLevel2 then
        let l1 := setup.betLevel1.getD 0
        let l2 := setup.betLevel2.getD 0
        updateFirst (fun p => decide (p.position = some .nhi))
          (fun p => { p with money := l2 })
          (updateFirst (fun p => decide (p.position = some .nhat))
            (fun p => { p with money := l1 })
            (updateFirst (fun p => decide (p.position = some .ba))
              (fun p => { p with money := -l2 })
              (updateFirst (fun p => decide (p.position = some .bet))
                (fun p => { p with money := -l1 }) players)))
      else players

/-- Source `newPlayers.forEach(player => { player.money += player.adjustments })`. -/
def applyAdjustments (players : List Player) : List Player :=
  players.map fun p => { p with money := p.money + p.adjustments }

/-- Number of players whose position is unset
(`players.filter(p => !p.position).length`). -/
def missingPositionCount (players : List Player) : Nat :=
  (players.filter fun p => p.position = none).length

/-- Failure modes of `calculateMoney`: a silent early return when no setup
exists, or the validation error whose message carries the count of
players lacking a position. -/
inductive CalcError
  | noSetup
  | missingPositions (count : Nat)
deriving DecidableEq, Repr

/-- The `calculateMoney` handler of `TienLenCalculator`: validate that every player
has a position (otherwise report the missing count and change nothing),
apply the selected rule, add the manual adjustments, and commit the round
(replacing the last round when recalculating, appending otherwise). -/
def calculateMoney (now : Nat) (s : State) : State × Option CalcError :=
  match s.setup with
  | none => (s, some .noSetup)
  | some setup =>
      if 0 < missingPositionCount s.players then
        (s, some (.missingPositions (missingPositionCount s.players)))
      else
        (Game.commitRound now setup (applyAdjustments (applyRule setup s.players)) s, none)

/-- Failure modes of `handleSaveRoundEdit`. -/
inductive EditError
  | noSetup
  | roundNotFound
  | missingPositions (count : Nat)
deriving DecidableEq, Repr

/-- The `handleSaveRoundEdit` handler: find the round being edited, validate the
edited players, recompute their money from zero using that round's own
stored setup, and replace the players and timestamp of every round whose
id matches, leaving all other rounds untouched. -/
def handleSaveRoundEdit (now roundId : Nat) (edited : List Player) (s : State) :
    State × Option EditError :=
  match s.setup with
  | none => (s, some .noSetup)
  | some _ =>
      match s.gameHistory.find? (fun r => r.id = roundId) with
      | none => (s, some .roundNotFound)
      | some round =>
          if 0 < missingPositionCount edited then
            (s, some (.missingPositions (missingPositionCount edited)))
          else
            let newPlayers :=
              applyAdjustments
                (applyRule round.setup (edited.map fun p => { p with money := 0 }))
            ({ s with gameHistory := s.gameHistory.map fun r =>
                 if r.id = roundId then { r with players := newPlayers, timestamp := now }
                 else r },
             none)

/-- The `handleDeleteRound` handler: remove every round with the given id, with no
recomputation of the others. -/
def handleDeleteRound (roundId : Nat) (s : State) : State :=
  { s with gameHistory := s.gameHistory.filter fun r => r.id ≠ roundId }

/-- The blanking applied by `handleUndo`/`handleNewRound`: money,
position and adjustments cleared, id and name kept. -/
def blankPlayer (p : Player) : Player :=
  { p with money := 0, position := none, adjustments := 0 }

/-- The `handleUndo` handler of `TienLenCalculator`. -/
def handleUndo (s : State) : State := Game.undo blankPlayer s

/-- The `handleNewRound` handler: blank the transient fields, clear `isCalculated`. -/
def handleNewRound (s : State) : State :=
  { s with players := s.players.map blankPlayer, isCalculated := false }

/-- The `resetGame` handler of `TienLenCalculator`. -/
def resetGame (s : State) : State := Game.resetGame s

end TienLen

namespace KachTe

/-- Pot win kinds: a normal win or a jackpot (`sap-lang`) win. -/
inductive WinType
  | normal
  | sapLang
deriving DecidableEq, Repr

/-- The `Player` interface of `KachTeCalculator`. -/
structure Player where
  id : Nat
  name : String
  isWinner : Bool
  winType : Option WinType
  money : Int
deriving DecidableEq, Repr

/-- The `GameSetup` interface of `KachTeCalculator`: the default and the jackpot bet
amounts. -/
structure GameSetup where
  numberOfPlayers : Nat
  defaultBetAmount : Int
  sapLangBetAmount : Int
deriving DecidableEq, Repr

abbrev Round := Game.Round Player GameSetup

abbrev State := Game.GState Player GameSetup

/-- Source `players.find(p => p.isWinner && p.winType)`: the winner selection
predicate. -/
def isWinnerSel (p : Player) : Bool := p.isWinner && p.winType.isSome

/-- The money assignment of `KachTeCalculator.calculateMoney` in value
semantics: all money is first reset to 0, the found winner (the first
player satisfying `isWinnerSel`, tracked by the `found` flag) is assigned
`wMoney`, and every player with `isWinner = false` is assigned `-bet`;
a player with `isWinner = true` that is not the found winner keeps the
reset 0. -/
def assignMoney (wMoney bet : Int) : Bool → List Player → List Player
  | _, [] => []
  | found, p :: ps =>
      if !found && isWinnerSel p then
        { p with money := wMoney } :: assignMoney wMoney bet true ps
      else
        (if p.isWinner then { p with money := 0 } else { p with money := -bet })
          :: assignMoney wMoney bet found ps

/-- Source `newPlayers[newPlayers.findIndex(p => p.id === winner.id)] = winner`:
overwrite the first player whose id matches. -/
def setFirstById (pid : Nat) (w : Player) : List Player → List Player
  | [] => []
  | p :: ps => if p.id = pid then w :: ps else p :: setFirstById pid w ps

/-- Failure modes of `KachTeCalculator.calculateMoney`: the silent return
without a setup, or the no-winner validation error (whose message carries
no count). -/
inductive CalcError
  | noSetup
  | noWinner
deriving DecidableEq, Repr

/-- The `calculateMoney` handler of `KachTeCalculator`: require a winner with a win
type; select the jackpot bet amount for a `sap-lang` win and the default
bet amount otherwise; the winner receives `(numberOfPlayers - 1) * bet`,
every non-winner pays `bet`; then commit the round. -/
def calculateMoney (now : Nat) (s : State) : State × Option CalcError :=
  match s.setup with
  | none => (s, some .noSetup)
  | some setup =>
      match s.players.find? isWinnerSel with
      | none => (s, some .noWinner)
      | some winner =>
          let betAmount :=
            if winner.winType = some .sapLang then setup.sapLangBetAmount
            else setup.defaultBetAmount
          let wMoney := ((setup.numberOfPlayers : Int) - 1) * betAmount
          let newPlayers :=
            setFirstById winner.id { winner with money := wMoney }
              (assignMoney wMoney betAmount false s.players)
          (Game.commitRound now setup newPlayers s, none)

/-- The blanking applied by `handleUndo`/`handleNewRound`. -/
def blankPlayer (p : Player) : Player :=
  { p with money := 0, isWinner := false, winType := none }

/-- The `handleUndo` handler of `KachTeCalculator`. -/
def handleUndo (s : State) : State := Game.undo blankPlayer s

/-- The `resetGame` handler of `KachTeCalculator`. -/
def resetGame (s : State) : State := Game.resetGame s

end KachTe

namespace XiDach

/-- Win/lose result of a non-banker player. -/
inductive GResult
  | win
  | lose
deriving DecidableEq, Repr

/-- The `Player` interface of `XiDachCalculator`. -/
structure Player where
  id : Nat
  name : String
  isHouse : Bool
  betAmount : Int
  result : Option GResult
  money : Int
deriving DecidableEq, Repr

/-- The `GameSetup` interface of `XiDachCalculator`. -/
structure GameSetup where
  numberOfPlayers : Nat
  housePlayerId : Nat
deriving DecidableEq, Repr

abbrev Round := Game.Round Player GameSetup

abbrev State := Game.GState Player GameSetup

/-- Settled money of a non-house player: `+betAmount` on a win,
`-betAmount` on a loss (0 is unreachable after validation). -/
def nonHouseMoney (p : Player) : Int :=
  match p.result with
  | some .win => p.betAmount
  | some .lose => -p.betAmount
  | none => 0

/-- The house player's accumulated money: starting from the reset 0, each
non-house win subtracts that player's bet and each loss adds it. -/
def houseDelta (players : List Player) : Int :=
  (players.filter fun p => !p.isHouse).foldl
    (fun acc p =>
      match p.result with
      | some .win => acc - p.betAmount
      | some .lose => acc + p.betAmount
      | none => acc) 0

/-- The money assignment of `XiDachCalculator.calculateMoney` in value
semantics: money reset to 0, the first house player (tracked by `seen`)
ends with the accumulated `delta`, any further house player keeps 0, and
each non-house player gets `nonHouseMoney`.  (The final
`newPlayers[houseIndex] = housePlayer` in the source rewrites the first
house slot with the object already stored there and is a no-op.) -/
def assignMoney (delta : Int) : Bool → List Player → List Player
  | _, [] => []
  | seen, p :: ps =>
      if p.isHouse then
        (if !seen then { p with money := delta } else { p with money := 0 })
          :: assignMoney delta true ps
      else
        { p with money := nonHouseMoney p } :: assignMoney delta seen ps

/-- Count of non-house players with `betAmount <= 0`
(`playersWithoutBet.length`). -/
def missingBetCount (players : List Player) : Nat :=
  ((players.filter fun p => !p.isHouse).filter fun p => p.betAmount ≤ 0).length

/-- Count of non-house players with no result
(`playersWithoutResult.length`). -/
def missingResultCount (players : List Player) : Nat :=
  ((players.filter fun p => !p.isHouse).filter fun p => p.result = none).length

/-- Failure modes of `XiDachCalculator.calculateMoney`: silent returns
when no setup or no house player exists, and the two validation errors
carrying the counts of players without a bet and without a result. -/
inductive CalcError
  | noSetup
  | noHouse
  | missingBet (count : Nat)
  | missingResult (count : Nat)
deriving DecidableEq, Repr

/-- The `calculateMoney` handler of `XiDachCalculator`: validate that every non-house
player has a positive bet amount and a result (a bet of 0 or less counts
as missing), then settle each non-house player against the house and
commit the round. -/
def calculateMoney (now : Nat) (s : State) : State × Option CalcError :=
  match s.setup with
  | none => (s, some .noSetup)
  | some setup =>
      if (s.players.find? (fun p => p.isHouse)).isNone then (s, some .noHouse)
      else if 0 < missingBetCount s.players then
        (s, some (.missingBet (missingBetCount s.players)))
      else if 0 < missingResultCount s.players then
        (s, some (.missingResult (missingResultCount s.players)))
      else
        (Game.commitRound now setup
          (assignMoney (houseDelta s.players) false s.players) s, none)

/-- The blanking applied by `handleUndo`/`handleNewRound`. -/
def blankPlayer (p : Player) : Player :=
  { p with money := 0, result := none, betAmount := 0 }

/-- The `handleUndo` handler of `XiDachCalculator`. -/
def handleUndo (s : State) : State := Game.undo blankPlayer s

/-- The `resetGame` handler of `XiDachCalculator`. -/
def resetGame (s : State) : State := Game.resetGame s

/-- The money assignment applied to a non-house player. -/
def payNonHouse (p : Player) : Player := { p with money := nonHouseMoney p }

end XiDach

/-- A Ladder state in which every player holds a position but no player
holds `nhat` (two players, positions `nhi` and `ba`): reachable because
position selection is per-player and validation only requires each
position to be non-null. -/
def c1State : TienLen.State :=
  { setup := some { numberOfPlayers := 2, betAmount := 10000, rule := .nhatAnHet,
                    betLevel1 := none, betLevel2 := none },
    players := [{ id := 1, name := "p1", position := some .nhi, money := 0, adjustments := 0 },
                { id := 2, name := "p2", position := some .ba, money := 0, adjustments := 0 }],
    gameHistory := [], isCalculated := false }

/-- The setup of concrete scenario 1: 3 players, bet 10000,
winner-takes-all rule. -/
def c1wSetup : TienLen.GameSetup :=
  { numberOfPlayers := 3, betAmount := 10000, rule := .nhatAnHet,
    betLevel1 := none, betLevel2 := none }

/-- Player 1 of scenario 1 (at `nhat`). -/
def c1wP1 : TienLen.Player :=
  { id := 1, name := "p1", position := some .nhat, money := 0, adjustments := 0 }

/-- Player 2 of scenario 1 (at `nhi`). -/
def c1wP2 : TienLen.Player :=
  { id := 2, name := "p2", position := some .nhi, money := 0, adjustments := 0 }

/-- Player 3 of scenario 1 (at `ba`). -/
def c1wP3 : TienLen.Player :=
  { id := 3, name := "p3", position := some .ba, money := 0, adjustments := 0 }

/-- A session state with one settled round in the ledger. -/
def c7State : TienLen.State :=
  { setup := some c1wSetup,
    players := [c1wP1, c1wP2, c1wP3],
    gameHistory := [{ id := 1, players := [c1wP1, c1wP2, c1wP3], setup := c1wSetup,
                      timestamp := 7 }],
    isCalculated := true }

/-- The state of concrete scenario 4: 4 Ladder players, player 4 lacking
a position, with one round already in the ledger. -/
def c8State : TienLen.State :=
  { setup := some { numberOfPlayers := 4, betAmount := 1000, rule := .nhatAnHet,
                    betLevel1 := none, betLevel2 := none },
    players := [{ id := 1, name := "p1", position := some .nhat, money := 0, adjustments := 0 },
                { id := 2, name := "p2", position := some .nhi, money := 0, adjustments := 0 },
                { id := 3, name := "p3", position := some .ba, money := 0, adjustments := 0 },
                { id := 4, name := "p4", position := none, money := 0, adjustments := 0 }],
    gameHistory := [{ id := 1, players := [c1wP1], setup := c1wSetup, timestamp := 3 }],
    isCalculated := true }

/-- A pre-calculate Ladder state: empty ledger, positions chosen (`nhat`
and `nhi`), money zero. -/
def c6State : TienLen.State :=
  { setup := some { numberOfPlayers := 2, betAmount := 100, rule := .nhatAnHet,
                    betLevel1 := none, betLevel2 := none },
    players := [{ id := 1, name := "p1", position := some .nhat, money := 0, adjustments := 0 },
                { id := 2, name := "p2", position := some .nhi, money := 0, adjustments := 0 }],
    gameHistory := [], isCalculated := false }

/-- A previously settled round used by the C6 witness. -/
def c6wRound : TienLen.Round :=
  { id := 1,
    players := [{ id := 1, name := "p1", position := some .nhi, money := -100, adjustments := 0 },
                { id := 2, name := "p2", position := some .nhat, money := 100, adjustments := 0 }],
    setup := { numberOfPlayers := 2, betAmount := 100, rule := .nhatAnHet,
               betLevel1 := none, betLevel2 := none },
    timestamp := 2 }

/-- A state with one prior round, about to settle a second round. -/
def c6wState : TienLen.State :=
  { setup := some { numberOfPlayers := 2, betAmount := 100, rule := .nhatAnHet,
                    betLevel1 := none, betLevel2 := none },
    players := [{ id := 1, name := "p1", position := some .nhat, money := 0, adjustments := 0 },
                { id := 2, name := "p2", position := some .nhi, money := 0, adjustments := 0 }],
    gameHistory := [c6wRound], isCalculated := false }

/-- The first round with id 2 in the C9 counterexample ledger: its stored
setup has `betAmount = 100`. -/
def c9RoundA : TienLen.Round :=
  { id := 2,
    players := [{ id := 1, name := "p1", position := some .nhat, money := 100, adjustments := 0 },
                { id := 2, name := "p2", position := some .nhi, money := -100, adjustments := 0 }],
    setup := { numberOfPlayers := 2, betAmount := 100, rule := .nhatAnHet,
               betLevel1 := none, betLevel2 := none },
    timestamp := 10 }

/-- The second round with id 2: its stored setup has `betAmount = 999`. -/
def c9RoundB : TienLen.Round :=
  { id := 2,
    players := [{ id := 1, name := "p1", position := some .nhi, money := -999, adjustments := 0 },
                { id := 2, name := "p2", position := some .nhat, money := 999, adjustments := 0 }],
    setup := { numberOfPlayers := 2, betAmount := 999, rule := .nhatAnHet,
               betLevel1 := none, betLevel2 := none },
    timestamp := 20 }

/-- A session whose ledger contains two rounds bearing id 2 (such ledgers
arise from `deleteRound` followed by a new settlement, since round ids
are assigned as `length + 1`). -/
def c9State : TienLen.State :=
  { setup := some { numberOfPlayers := 2, betAmount := 55, rule := .nhatAnHet,
                    betLevel1 := none, betLevel2 := none },
    players := [{ id := 1, name := "p1", position := some .nhat, money := 0, adjustments := 0 },
                { id := 2, name := "p2", position := some .nhi, money := 0, adjustments := 0 }],
    gameHistory := [c9RoundA, c9RoundB], isCalculated := true }

/-- The edited player inputs handed to `editRound` in the C9
counterexample. -/
def c9Edited : List TienLen.Player :=
  [{ id := 1, name := "p1", position := some .nhat, money := 0, adjustments := 0 },
   { id := 2, name := "p2", position := some .nhi, money := 0, adjustments := 0 }]

/-- The banker of concrete scenario 2. -/
def c2H : XiDach.Player :=
  { id := 1, name := "p1", isHouse := true, betAmount := 0, result := none, money := 0 }

/-- Player 2 of scenario 2: bets 5000 and wins. -/
def c2P2 : XiDach.Player :=
  { id := 2, name := "p2", isHouse := false, betAmount := 5000, result := some .win,
    money := 0 }

/-- Player 3 of scenario 2: bets 3000 and loses. -/
def c2P3 : XiDach.Player :=
  { id := 3, name := "p3", isHouse := false, betAmount := 3000, result := some .lose,
    money := 0 }

/-- The jackpot winner of concrete scenario 3. -/
def c3W : KachTe.Player :=
  { id := 1, name := "p1", isWinner := true, winType := some .sapLang, money := 0 }

/-- A loser of concrete scenario 3 (parameterized by id). -/
def c3L (i : Nat) : KachTe.Player :=
  { id := i, name := "p", isWinner := false, winType := none, money := 0 }

/-- The C10 witness state: banker p1; p2 has result `win` set but a bet
of 0; p3 bets 3000 and loses; one round already in the ledger. -/
def c10State : XiDach.State :=
  { setup := some { numberOfPlayers := 3, housePlayerId := 1 },
    players := [c2H,
      { id := 2, name := "p2", isHouse := false, betAmount := 0, result := some .win,
        money := 0 },
      c2P3],
    gameHistory := [{ id := 1, players := [c2H, c2P2, c2P3],
                      setup := { numberOfPlayers := 3, housePlayerId := 1 },
                      timestamp := 4 }],
    isCalculated := true }

namespace TienLen

/-- The per-player money effect of the tiered rule when both levels are
truthy and each position is held by at most one player: the `bet` player
pays `level1`, the `ba` player pays `level2`, the `nhat` player receives
`level1`, the `nhi` player receives `level2`. -/
def tieredMoney (l1 l2 : Int) (p : Player) : Player :=
  match p.position with
  | some .bet => { p with money := -l1 }
  | some .ba => { p with money := -l2 }
  | some .nhat => { p with money := l1 }
  | some .nhi => { p with money := l2 }
  | none => p

/-- The tiered rule's pre-adjustment payout as a function of position
(spec reading of the tiered transfers). -/
def tieredPayout (l1 l2 : Int) : Option Position → Int
  | some .bet => -l1
  | some .ba => -l2
  | some .nhat => l1
  | some .nhi => l2
  | none => 0

end TienLen

/-- The setup of the C4 counterexample: tiered rule with both bet levels
present but equal to 0 (falsy in the source's truthiness guard). -/
def c4Setup : TienLen.GameSetup :=
  { numberOfPlayers := 4, betAmount := 0, rule := .nhatAnBetNhiAnBa,
    betLevel1 := some 0, betLevel2 := some 0 }

/-- The C4 counterexample state: positions `nhat`, `nhi`, `ba`, `bet`
each held exactly once; the `bet` player carries an adjustment of 7. -/
def c4State : TienLen.State :=
  { setup := some c4Setup,
    players := [{ id := 1, name := "p1", position := some .nhat, money := 0, adjustments := 0 },
                { id := 2, name := "p2", position := some .nhi, money := 0, adjustments := 0 },
                { id := 3, name := "p3", position := some .ba, money := 0, adjustments := 0 },
                { id := 4, name := "p4", position := some .bet, money := 0, adjustments := 7 }],
    gameHistory := [], isCalculated := false }

/-- The setup used by the C4 witness: tiered rule, levels 5000/3000. -/
def c4wSetup : TienLen.GameSetup :=
  { numberOfPlayers := 4, betAmount := 0, rule := .nhatAnBetNhiAnBa,
    betLevel1 := some 5000, betLevel2 := some 3000 }

/-- The C4 witness state: four players at `nhat`, `nhi`, `ba`, `bet`. -/
def c4wState : TienLen.State :=
  { setup := some c4wSetup,
    players := [{ id := 1, name := "p1", position := some .nhat, money := 0, adjustments := 0 },
                { id := 2, name := "p2", position := some .nhi, money := 0, adjustments := 0 },
                { id := 3, name := "p3", position := some .ba, money := 0, adjustments := 0 },
                { id := 4, name := "p4", position := some .bet, money := 0, adjustments := 0 }],
    gameHistory := [], isCalculated := false }

/-- The C5 counterexample state: Ladder tiered rule with both bet levels
0 (falsy), four positioned players, player 1 carrying an adjustment of
100. -/
def c5State : TienLen.State :=
  { setup := some { numberOfPlayers := 4, betAmount := 0, rule := .nhatAnBetNhiAnBa,
                    betLevel1 := some 0, betLevel2 := some 0 },
    players := [{ id := 1, name := "p1", position := some .nhat, money := 0, adjustments := 100 },
                { id := 2, name := "p2", position := some .nhi, money := 0, adjustments := 0 },
                { id := 3, name := "p3", position := some .ba, money := 0, adjustments := 0 },
                { id := 4, name := "p4", position := some .bet, money := 0, adjustments := 0 }],
    gameHistory := [], isCalculated := false }

/-- The Ladder instance for the C5 witness. -/
def c5wTL : TienLen.State :=
  { setup := some { numberOfPlayers := 2, betAmount := 100, rule := .nhatAnHet,
                    betLevel1 := none, betLevel2 := none },
    players := [{ id := 1, name := "p1", position := some .nhat, money := 0, adjustments := 0 },
                { id := 2, name := "p2", position := some .nhi, money := 0, adjustments := 0 }],
    gameHistory := [], isCalculated := false }

/-- The Pot winner for the C5 witness. -/
def c5wKTw : KachTe.Player :=
  { id := 1, name := "p1", isWinner := true, winType := some .normal, money := 0 }

/-- The Pot loser for the C5 witness. -/
def c5wKTl : KachTe.Player :=
  { id := 2, name := "p2", isWinner := false, winType := none, money := 0 }

/-- The Pot instance for the C5 witness. -/
def c5wKT : KachTe.State :=
  { setup := some { numberOfPlayers := 2, defaultBetAmount := 300, sapLangBetAmount := 900 },
    players := [c5wKTw, c5wKTl], gameHistory := [], isCalculated := false }

/-- The Banker house player for the C5 witness. -/
def c5wXDh : XiDach.Player :=
  { id := 1, name := "p1", isHouse := true, betAmount := 0, result := none, money := 0 }

/-- The Banker punter for the C5 witness. -/
def c5wXDp : XiDach.Player :=
  { id := 2, name := "p2", isHouse := false, betAmount := 700, result := some .win,
    money := 0 }

/-- The Banker instance for the C5 witness. -/
def c5wXD : XiDach.State :=
  { setup := some { numberOfPlayers := 2, housePlayerId := 1 },
    players := [c5wXDh, c5wXDp], gameHistory := [], isCalculated := false }

/-! ## Theorems -/

namespace Game

theorem replaceLast_length (ps : List π) (now : Nat) (l : List (Round π σ)) :
    (replaceLast ps now l).length = l.length := by
  induction l with
  | nil => rfl
  | cons r rs ih =>
    cases rs with
    | nil => rfl
    | cons r' rs' => simpa [replaceLast] using ih

theorem replaceLast_concat (ps : List π) (now : Nat) (l : List (Round π σ)) (r : Round π σ) :
    replaceLast ps now (l ++ [r]) = l ++ [{ r with players := ps, timestamp := now }] := by
  induction l with
  | nil => rfl
  | cons a as ih =>
    cases as with
    | nil => simp [replaceLast]
    | cons a' as' => simpa [replaceLast] using ih

theorem commitRound_players (now : Nat) (st : σ) (ps : List π) (s : GState π σ) :
    (commitRound now st ps s).players = ps := by
  unfold commitRound; split <;> rfl

theorem commitRound_setup (now : Nat) (st : σ) (ps : List π) (s : GState π σ) :
    (commitRound now st ps s).setup = s.setup := by
  unfold commitRound; split <;> rfl

theorem commitRound_isCalculated (now : Nat) (st : σ) (ps : List π) (s : GState π σ) :
    (commitRound now st ps s).isCalculated = true := by
  unfold commitRound; split <;> rfl

theorem commitRound_history_length_pos (now : Nat) (st : σ) (ps : List π) (s : GState π σ) :
    0 < (commitRound now st ps s).gameHistory.length := by
  unfold commitRound
  split
  case isTrue h => simpa [replaceLast_length] using h.2
  case isFalse h => simp

theorem commitRound_append (now : Nat) (st : σ) (ps : List π) (s : GState π σ)
    (h : ¬ (s.isCalculated ∧ 0 < s.gameHistory.length)) :
    (commitRound now st ps s).gameHistory =
      s.gameHistory ++ [{ id := s.gameHistory.length + 1, players := ps, setup := st,
                          timestamp := now }] := by
  unfold commitRound
  rw [if_neg h]

theorem commitRound_replace (now : Nat) (st : σ) (ps : List π) (s : GState π σ)
    (h : s.isCalculated ∧ 0 < s.gameHistory.length) :
    (commitRound now st ps s).gameHistory = replaceLast ps now s.gameHistory := by
  unfold commitRound
  rw [if_pos h]

theorem undo_concat_some (blank : π → π) (s : GState π σ) (l : List (Round π σ))
    (r last : Round π σ) (h : s.gameHistory = l ++ [r]) (hl : l.getLast? = some last) :
    undo blank s =
      { s with gameHistory := l, players := last.players, setup := some last.setup,
               isCalculated := false } := by
  unfold undo
  rw [h]
  simp [List.dropLast_concat, hl]

theorem undo_concat_none (blank : π → π) (s : GState π σ) (r : Round π σ)
    (h : s.gameHistory = [r]) :
    undo blank s =
      { s with gameHistory := [], players := s.players.map blank,
               isCalculated := false } := by
  unfold undo
  rw [h]
  simp

end Game

theorem list_sum_map_const {α : Type} (l : List α) (c : Int) :
    (l.map fun _ => c).sum = c * l.length := by
  induction l with
  | nil => simp
  | cons a as ih => simp [ih]; ring

theorem list_filter_none {α : Type} (pred : α → Bool) {l : List α}
    (h : ∀ a ∈ l, pred a = false) : l.filter pred = [] := by
  induction l with
  | nil => rfl
  | cons a as ih =>
    have ha := h a (List.mem_cons_self a as)
    have := ih fun b hb => h b (List.mem_cons_of_mem _ hb)
    simp [List.filter_cons, ha, this]

theorem list_filter_all {α : Type} (pred : α → Bool) {l : List α}
    (h : ∀ a ∈ l, pred a = true) : l.filter pred = l := by
  induction l with
  | nil => rfl
  | cons a as ih =>
    have ha := h a (List.mem_cons_self a as)
    have := ih fun b hb => h b (List.mem_cons_of_mem _ hb)
    simp [List.filter_cons, ha, this]

namespace TienLen

theorem missingPositionCount_eq_zero {l : List Player}
    (h : ∀ p ∈ l, p.position ≠ none) : missingPositionCount l = 0 := by
  induction l with
  | nil => rfl
  | cons p ps ih =>
    have hp : p.position ≠ none := h p (List.mem_cons_self p ps)
    have hrest := ih fun q hq => h q (List.mem_cons_of_mem _ hq)
    simpa [missingPositionCount, List.filter_cons, hp] using hrest

theorem applyAdjustments_pre (l : List Player) :
    (applyAdjustments l).map (fun p => p.money - p.adjustments) = l.map (·.money) := by
  induction l with
  | nil => rfl
  | cons p ps _ => simp [applyAdjustments]

theorem calculateMoney_ok (now : Nat) (s : State) (st : GameSetup)
    (hsetup : s.setup = some st)
    (hval : missingPositionCount s.players = 0) :
    calculateMoney now s =
      (Game.commitRound now st (applyAdjustments (applyRule st s.players)) s, none) := by
  unfold calculateMoney
  rw [hsetup]
  simp [hval]

theorem calculateMoney_missing (now : Nat) (s : State) (st : GameSetup)
    (hsetup : s.setup = some st)
    (hmiss : 0 < missingPositionCount s.players) :
    calculateMoney now s =
      (s, some (.missingPositions (missingPositionCount s.players))) := by
  unfold calculateMoney
  rw [hsetup]
  simp [hmiss]

end TienLen

namespace XiDach

theorem find_house (l₁ l₂ : List Player) (H : Player)
    (hH : H.isHouse = true) (h₁ : ∀ p ∈ l₁, p.isHouse = false) :
    (l₁ ++ H :: l₂).find? (fun p => p.isHouse) = some H := by
  induction l₁ with
  | nil => simp [List.find?_cons, hH]
  | cons a as ih =>
    have ha := h₁ a (List.mem_cons_self a as)
    have := ih fun p hp => h₁ p (List.mem_cons_of_mem _ hp)
    simpa [List.find?_cons, ha] using this

theorem filter_non_house (l₁ l₂ : List Player) (H : Player)
    (hH : H.isHouse = true) (h₁ : ∀ p ∈ l₁, p.isHouse = false)
    (h₂ : ∀ p ∈ l₂, p.isHouse = false) :
    (l₁ ++ H :: l₂).filter (fun p => !p.isHouse) = l₁ ++ l₂ := by
  rw [List.filter_append, List.filter_cons]
  simp only [hH]
  rw [list_filter_all _ fun p hp => by simp [h₁ p hp],
    list_filter_all _ fun p hp => by simp [h₂ p hp]]
  simp

theorem assignMoney_no_house (D : Int) (b : Bool) {l : List Player}
    (h : ∀ p ∈ l, p.isHouse = false) :
    assignMoney D b l = l.map payNonHouse := by
  induction l generalizing b with
  | nil => rfl
  | cons p ps ih =>
    have hp := h p (List.mem_cons_self p ps)
    have := ih b fun q hq => h q (List.mem_cons_of_mem _ hq)
    simp [assignMoney, hp, payNonHouse, this]

theorem assignMoney_decomp (D : Int) (l₁ l₂ : List Player) (H : Player)
    (hH : H.isHouse = true) (h₁ : ∀ p ∈ l₁, p.isHouse = false)
    (h₂ : ∀ p ∈ l₂, p.isHouse = false) :
    assignMoney D false (l₁ ++ H :: l₂) =
      l₁.map payNonHouse ++ { H with money := D } :: l₂.map payNonHouse := by
  induction l₁ with
  | nil =>
    simp only [List.nil_append, List.map_nil]
    simp [assignMoney, hH, assignMoney_no_house D true h₂]
  | cons a as ih =>
    have ha := h₁ a (List.mem_cons_self a as)
    have := ih fun p hp => h₁ p (List.mem_cons_of_mem _ hp)
    simp [assignMoney, ha, payNonHouse, this]

theorem foldl_delta (l : List Player) (acc : Int) :
    l.foldl
        (fun acc p =>
          match p.result with
          | some .win => acc - p.betAmount
          | some .lose => acc + p.betAmount
          | none => acc) acc =
      acc + ((l.filter fun p => p.result = some .lose).map fun p => p.betAmount).sum
          - ((l.filter fun p => p.result = some .win).map fun p => p.betAmount).sum := by
  induction l generalizing acc with
  | nil => simp
  | cons p ps ih =>
    rcases hr : p.result with _ | r
    · simp [List.foldl_cons, hr, List.filter_cons, ih]
    · cases r <;> simp [List.foldl_cons, hr, List.filter_cons, ih] <;> ring

theorem houseDelta_decomp (l₁ l₂ : List Player) (H : Player)
    (hH : H.isHouse = true) (h₁ : ∀ p ∈ l₁, p.isHouse = false)
    (h₂ : ∀ p ∈ l₂, p.isHouse = false) :
    houseDelta (l₁ ++ H :: l₂) =
      (((l₁ ++ l₂).filter fun p => p.result = some .lose).map fun p => p.betAmount).sum -
        (((l₁ ++ l₂).filter fun p => p.result = some .win).map fun p => p.betAmount).sum := by
  unfold houseDelta
  rw [filter_non_house l₁ l₂ H hH h₁ h₂, foldl_delta]
  ring

theorem sum_nonHouseMoney (l : List Player) :
    (l.map nonHouseMoney).sum =
      ((l.filter fun p => p.result = some .win).map fun p => p.betAmount).sum -
        ((l.filter fun p => p.result = some .lose).map fun p => p.betAmount).sum := by
  induction l with
  | nil => simp
  | cons p ps ih =>
    rcases hr : p.result with _ | r
    · simp [List.map_cons, nonHouseMoney, hr, List.filter_cons, ih]
    · cases r <;> simp [List.map_cons, nonHouseMoney, hr, List.filter_cons, ih] <;> ring

end XiDach

/-- C1, counterexample: in a winner-takes-all Ladder round where every
player holds a position but none holds `nhat`, settlement succeeds, every
player is charged `-betAmount`, and the pre-adjustment sum over all
players is `-20000`, not `0`: the claim's zero-sum conclusion fails under
its stated hypotheses. -/
theorem c1_counterexample :
    (∀ p ∈ c1State.players, p.position ≠ none) ∧
    (TienLen.calculateMoney 0 c1State).2 = none ∧
    ((TienLen.calculateMoney 0 c1State).1.players.map
        (fun p => p.money - p.adjustments)).sum ≠ 0 := by
  decide

/-- C1, amended (with the additional hypothesis, forced by the
counterexample, that exactly one player is at position `nhat`): for every
winner-takes-all Ladder setup and player list in which all players hold a
position, exactly one of them holding `nhat`, and the player count
matches the setup, settlement succeeds, assigns the `nhat` player a
pre-adjustment money of `betAmount * (numberOfPlayers - 1)` and every
other player `-betAmount`, and the pre-adjustment sum over all players is
0. -/
theorem c1_amended (st : TienLen.GameSetup) (l₁ l₂ : List TienLen.Player)
    (w : TienLen.Player) (hist : List TienLen.Round) (flag : Bool) (now : Nat)
    (s : TienLen.State)
    (hs : s = { setup := some st, players := l₁ ++ w :: l₂, gameHistory := hist,
                isCalculated := flag })
    (hrule : st.rule = .nhatAnHet)
    (hw : w.position = some .nhat)
    (h₁ : ∀ p ∈ l₁, p.position ≠ none ∧ p.position ≠ some .nhat)
    (h₂ : ∀ p ∈ l₂, p.position ≠ none ∧ p.position ≠ some .nhat)
    (hlen : l₁.length + 1 + l₂.length = st.numberOfPlayers) :
    (TienLen.calculateMoney now s).2 = none ∧
    (TienLen.calculateMoney now s).1.players.map (fun p => p.money - p.adjustments) =
      l₁.map (fun _ => -st.betAmount) ++
        (st.betAmount * ((st.numberOfPlayers : Int) - 1)) ::
          l₂.map (fun _ => -st.betAmount) ∧
    ((TienLen.calculateMoney now s).1.players.map
        (fun p => p.money - p.adjustments)).sum = 0 := by
  subst hs
  have hval : TienLen.missingPositionCount (l₁ ++ w :: l₂) = 0 := by
    apply TienLen.missingPositionCount_eq_zero
    intro p hp
    rcases List.mem_append.mp hp with hp1 | hp2
    · exact (h₁ p hp1).1
    · rcases List.mem_cons.mp hp2 with rfl | hp3
      · simp [hw]
      · exact (h₂ p hp3).1
  have hcalc := TienLen.calculateMoney_ok now
    { setup := some st, players := l₁ ++ w :: l₂, gameHistory := hist, isCalculated := flag }
    st rfl hval
  rw [hcalc]
  have hplayers :
      (Game.commitRound now st
          (TienLen.applyAdjustments (TienLen.applyRule st (l₁ ++ w :: l₂)))
          { setup := some st, players := l₁ ++ w :: l₂, gameHistory := hist,
            isCalculated := flag }).players =
        TienLen.applyAdjustments (TienLen.applyRule st (l₁ ++ w :: l₂)) :=
    Game.commitRound_players ..
  have hmap :
      (TienLen.applyAdjustments (TienLen.applyRule st (l₁ ++ w :: l₂))).map
          (fun p => p.money - p.adjustments) =
        l₁.map (fun _ => -st.betAmount) ++
          (st.betAmount * ((st.numberOfPlayers : Int) - 1)) ::
            l₂.map (fun _ => -st.betAmount) := by
    rw [TienLen.applyAdjustments_pre]
    unfold TienLen.applyRule
    rw [hrule]
    simp only [List.map_append, List.map_cons, List.map_map]
    congr 1
    · apply List.map_congr_left
      intro p hp
      simp [(h₁ p hp).2]
    · congr 1
      · simp [hw]
      · apply List.map_congr_left
        intro p hp
        simp [(h₂ p hp).2]
  refine ⟨rfl, ?_, ?_⟩
  · rw [hplayers, hmap]
  · rw [hplayers, hmap]
    rw [List.sum_append, List.sum_cons, list_sum_map_const, list_sum_map_const]
    have hN : (st.numberOfPlayers : Int) - 1 = (l₁.length : Int) + l₂.length := by
      omega
    rw [hN]
    ring

/-- C1, witness (concrete scenario 1): 3 players, bet 10000, player 1 at
`nhat` → money `{p1: +20000, p2: -10000, p3: -10000}`, summing to 0. -/
theorem c1_witness :
    (TienLen.calculateMoney 0
        { setup := some c1wSetup, players := [c1wP1, c1wP2, c1wP3],
          gameHistory := [], isCalculated := false }).2 = none ∧
    (TienLen.calculateMoney 0
        { setup := some c1wSetup, players := [c1wP1, c1wP2, c1wP3],
          gameHistory := [], isCalculated := false }).1.players.map
      (fun p => p.money - p.adjustments) = [20000, -10000, -10000] ∧
    ((TienLen.calculateMoney 0
        { setup := some c1wSetup, players := [c1wP1, c1wP2, c1wP3],
          gameHistory := [], isCalculated := false }).1.players.map
      (fun p => p.money - p.adjustments)).sum = 0 := by
  have h := c1_amended c1wSetup [] [c1wP2, c1wP3] c1wP1 [] false 0
    { setup := some c1wSetup, players := [c1wP1, c1wP2, c1wP3],
      gameHistory := [], isCalculated := false }
    rfl rfl (by decide) (by decide) (by decide) (by decide)
  refine ⟨h.1, ?_, h.2.2⟩
  rw [h.2.1]
  decide

/-- C7, counterexample: `resetGame` does NOT leave the ledger unchanged —
starting from a state with a non-empty round history, the history after
`resetGame` is empty. -/
theorem c7_counterexample :
    c7State.gameHistory ≠ [] ∧
    (TienLen.resetGame c7State).gameHistory ≠ c7State.gameHistory := by
  decide

/-- C7, amended: `resetGame` (identical in all three calculators)
discards the current players and setup and clears the calculated flag,
and ALSO clears the ledger: the resulting state is the blank setup state
with an empty round history. -/
theorem c7_amended (π σ : Type) (s : Game.GState π σ) :
    Game.resetGame s =
      { setup := none, players := [], gameHistory := [], isCalculated := false } :=
  rfl

/-- C8: whenever at least one Ladder player lacks a position,
`calculateMoney` returns the prior state completely unchanged (ledger,
players, setup, calculated flag) together with the validation error
carrying the exact count of players missing a position. -/
theorem c8_missing_input (s : TienLen.State) (st : TienLen.GameSetup) (now : Nat)
    (hsetup : s.setup = some st)
    (hmiss : 0 < TienLen.missingPositionCount s.players) :
    TienLen.calculateMoney now s =
      (s, some (.missingPositions (TienLen.missingPositionCount s.players))) :=
  TienLen.calculateMoney_missing now s st hsetup hmiss

/-- C8, witness (concrete scenario 4): with 1 of 4 players lacking a
position, `calculateMoney` reports a missing count of 1 and returns the
state — ledger included — unchanged. -/
theorem c8_witness :
    TienLen.calculateMoney 9 c8State = (c8State, some (.missingPositions 1)) := by
  have h := c8_missing_input c8State
    { numberOfPlayers := 4, betAmount := 1000, rule := .nhatAnHet,
      betLevel1 := none, betLevel2 := none } 9 rfl (by decide)
  exact h.trans (by decide)

/-- C6, counterexample: from a state with an empty ledger and positions
chosen, a successful `calculate()` followed by `undo()` does NOT restore
`currentPlayers` to their pre-calculate values — the undo blanks the
players (positions cleared), which differs from the pre-calculate players
whose positions were set. -/
theorem c6_counterexample :
    (TienLen.calculateMoney 5 c6State).2 = none ∧
    (TienLen.handleUndo (TienLen.calculateMoney 5 c6State).1).gameHistory.length + 1 =
      (TienLen.calculateMoney 5 c6State).1.gameHistory.length ∧
    (TienLen.handleUndo (TienLen.calculateMoney 5 c6State).1).players ≠ c6State.players := by
  decide

/-- C6, amended: a successful appending `calculate()` followed by
`undo()` removes exactly the newly appended round, so the LEDGER returns
to its pre-calculate value (its length one less than after the
calculate); `currentPlayers`/`currentSetup` are restored to the new last
round's snapshot when one exists, and otherwise the players are blanked
(money, positions, adjustments cleared) with the setup left as it was —
not, in general, to their pre-calculate values. -/
theorem c6_amended (s : TienLen.State) (st : TienLen.GameSetup) (now : Nat)
    (hsetup : s.setup = some st)
    (hsucc : (TienLen.calculateMoney now s).2 = none)
    (happend : ¬ (s.isCalculated = true ∧ 0 < s.gameHistory.length)) :
    (TienLen.calculateMoney now s).1.gameHistory.length = s.gameHistory.length + 1 ∧
    (TienLen.handleUndo (TienLen.calculateMoney now s).1).gameHistory = s.gameHistory ∧
    (∀ r, s.gameHistory.getLast? = some r →
      (TienLen.handleUndo (TienLen.calculateMoney now s).1).players = r.players ∧
      (TienLen.handleUndo (TienLen.calculateMoney now s).1).setup = some r.setup) ∧
    (s.gameHistory = [] →
      (TienLen.handleUndo (TienLen.calculateMoney now s).1).players =
        (TienLen.calculateMoney now s).1.players.map TienLen.blankPlayer ∧
      (TienLen.handleUndo (TienLen.calculateMoney now s).1).setup = some st) := by
  have hval : TienLen.missingPositionCount s.players = 0 := by
    by_contra hne
    have hpos : 0 < TienLen.missingPositionCount s.players := Nat.pos_of_ne_zero hne
    rw [TienLen.calculateMoney_missing now s st hsetup hpos] at hsucc
    simp at hsucc
  rw [TienLen.calculateMoney_ok now s st hsetup hval]
  have hhist := Game.commitRound_append now st
    (TienLen.applyAdjustments (TienLen.applyRule st s.players)) s happend
  refine ⟨by rw [hhist]; simp, ?_, ?_, ?_⟩
  · rcases hgl : s.gameHistory.getLast? with _ | last
    · have hnil : s.gameHistory = [] := by
        cases hh : s.gameHistory with
        | nil => rfl
        | cons a as => rw [hh] at hgl; simp [List.getLast?_concat] at hgl
      rw [TienLen.handleUndo, Game.undo_concat_none TienLen.blankPlayer _ _
        (by rw [hhist, hnil]; rfl)]
      simpa using hnil
    · rw [TienLen.handleUndo, Game.undo_concat_some TienLen.blankPlayer _ _ _ last hhist hgl]
  · intro r hr
    rw [TienLen.handleUndo, Game.undo_concat_some TienLen.blankPlayer _ _ _ r hhist hr]
    exact ⟨rfl, rfl⟩
  · intro hnil
    rw [TienLen.handleUndo, Game.undo_concat_none TienLen.blankPlayer _ _
      (by rw [hhist, hnil]; rfl)]
    constructor
    · simp [Game.commitRound_players]
    · have := Game.commitRound_setup now st
        (TienLen.applyAdjustments (TienLen.applyRule st s.players)) s
      simp [this, hsetup]

/-- C6, witness: settling a second round and undoing it restores the
ledger to the single prior round and the in-progress players/setup to
that round's snapshot. -/
theorem c6_witness :
    (TienLen.calculateMoney 5 c6wState).1.gameHistory.length =
      c6wState.gameHistory.length + 1 ∧
    (TienLen.handleUndo (TienLen.calculateMoney 5 c6wState).1).gameHistory =
      c6wState.gameHistory ∧
    (TienLen.handleUndo (TienLen.calculateMoney 5 c6wState).1).players = c6wRound.players ∧
    (TienLen.handleUndo (TienLen.calculateMoney 5 c6wState).1).setup = some c6wRound.setup := by
  have h := c6_amended c6wState
    { numberOfPlayers := 2, betAmount := 100, rule := .nhatAnHet,
      betLevel1 := none, betLevel2 := none } 5 rfl (by decide) (by decide)
  exact ⟨h.1, h.2.1, (h.2.2.1 c6wRound (by decide)).1, (h.2.2.1 c6wRound (by decide)).2⟩

theorem tienlen_find_round (h₁ h₂ : List TienLen.Round) (r : TienLen.Round) (k : Nat)
    (hk : r.id = k) (hh₁ : ∀ r' ∈ h₁, r'.id ≠ k) :
    (h₁ ++ r :: h₂).find? (fun r' => r'.id = k) = some r := by
  induction h₁ with
  | nil => simp [List.find?_cons, hk]
  | cons a as ih =>
    have ha : a.id ≠ k := hh₁ a (List.mem_cons_self a as)
    have := ih fun r' hr' => hh₁ r' (List.mem_cons_of_mem _ hr')
    simpa [List.find?_cons, ha] using this

theorem tienlen_map_rounds_skip (h : List TienLen.Round) (k : Nat)
    (f : TienLen.Round → TienLen.Round) (hh : ∀ r' ∈ h, r'.id ≠ k) :
    (h.map fun r => if r.id = k then f r else r) = h := by
  have := List.map_congr_left (l := h)
    (f := fun r => if r.id = k then f r else r) (g := id)
    (fun r hr => by simp [hh r hr])
  simpa using this

/-- C9, amended (with the additional hypothesis, forced by the
counterexample, that the edited round id occurs only once in the ledger
— which can fail after `deleteRound`, since round ids are assigned as
`length + 1`): a successful `editRound(k, edited)` replaces exactly the
round with id `k`, keeping its id and stored setup, recomputing its
players' money from zero using that round's OWN stored setup (the live
session setup is arbitrary and unused) and stamping the new timestamp;
every other round is unchanged.  On validation failure (some edited
player missing a position) the whole state is returned unchanged together
with the error carrying the missing count. -/
theorem c9_amended (st : TienLen.GameSetup) (h₁ h₂ : List TienLen.Round)
    (r : TienLen.Round) (k now : Nat) (edited P : List TienLen.Player) (flag : Bool)
    (s : TienLen.State)
    (hs : s = { setup := some st, players := P, gameHistory := h₁ ++ r :: h₂,
                isCalculated := flag })
    (hk : r.id = k)
    (hh₁ : ∀ r' ∈ h₁, r'.id ≠ k) (hh₂ : ∀ r' ∈ h₂, r'.id ≠ k) :
    (TienLen.missingPositionCount edited = 0 →
      TienLen.handleSaveRoundEdit now k edited s =
        ({ setup := some st, players := P,
           gameHistory := h₁ ++
             { r with
               players := TienLen.applyAdjustments (TienLen.applyRule r.setup
                 (edited.map fun p => { p with money := 0 })),
               timestamp := now } :: h₂,
           isCalculated := flag }, none)) ∧
    (0 < TienLen.missingPositionCount edited →
      TienLen.handleSaveRoundEdit now k edited s =
        (s, some (.missingPositions (TienLen.missingPositionCount edited)))) := by
  subst hs
  have hfind := tienlen_find_round h₁ h₂ r k hk hh₁
  constructor
  · intro hok
    unfold TienLen.handleSaveRoundEdit
    simp only [hfind, hok, List.map_append, List.map_cons,
      tienlen_map_rounds_skip h₁ k _ hh₁, tienlen_map_rounds_skip h₂ k _ hh₂,
      if_pos hk]
    simp
  · intro hmiss
    unfold TienLen.handleSaveRoundEdit
    simp only [hfind, if_pos hmiss]

/-- C9, counterexample: with two rounds bearing id 2 (stored setups with
bets 100 and 999), a successful `editRound(2, ...)` does not change only
one round: the round at index 1 is also overwritten, and its new money
`[100, -100]` is computed from the OTHER round's stored setup (bet 100),
not from its own stored setup (bet 999). -/
theorem c9_counterexample :
    (TienLen.handleSaveRoundEdit 30 2 c9Edited c9State).2 = none ∧
    c9State.gameHistory.map (fun r => r.id) = [2, 2] ∧
    c9State.gameHistory.map (fun r => r.setup.betAmount) = [100, 999] ∧
    (TienLen.handleSaveRoundEdit 30 2 c9Edited c9State).1.gameHistory[1]? ≠
      c9State.gameHistory[1]? ∧
    (TienLen.handleSaveRoundEdit 30 2 c9Edited c9State).1.gameHistory.map
      (fun r => r.players.map (fun p => p.money)) = [[100, -100], [100, -100]] := by
  decide

/-- C9, witness: in a ledger `[id 1, id 2, id 3]` with distinct ids,
editing round 2 replaces exactly that round (recomputed from its own
stored setup, bet 100: money `[100, -100]`), leaves rounds 1 and 3
unchanged, and an invalid edit (missing position) leaves the state
unchanged with the error count 1. -/
theorem c9_witness :
    (TienLen.handleSaveRoundEdit 40 2 c9Edited
        { setup := some { numberOfPlayers := 2, betAmount := 55, rule := .nhatAnHet,
                          betLevel1 := none, betLevel2 := none },
          players := c9Edited,
          gameHistory := [{ c9RoundA with id := 1 }, c9RoundA, { c9RoundB with id := 3 }],
          isCalculated := true } =
      ({ setup := some { numberOfPlayers := 2, betAmount := 55, rule := .nhatAnHet,
                         betLevel1 := none, betLevel2 := none },
         players := c9Edited,
         gameHistory := [{ c9RoundA with id := 1 },
           { c9RoundA with
             players := TienLen.applyAdjustments (TienLen.applyRule c9RoundA.setup
               (c9Edited.map fun p => { p with money := 0 })),
             timestamp := 40 },
           { c9RoundB with id := 3 }],
         isCalculated := true }, none)) := by
  have h := c9_amended
    { numberOfPlayers := 2, betAmount := 55, rule := .nhatAnHet,
      betLevel1 := none, betLevel2 := none }
    [{ c9RoundA with id := 1 }] [{ c9RoundB with id := 3 }] c9RoundA 2 40
    c9Edited c9Edited true
    { setup := some { numberOfPlayers := 2, betAmount := 55, rule := .nhatAnHet,
                      betLevel1 := none, betLevel2 := none },
      players := c9Edited,
      gameHistory := [{ c9RoundA with id := 1 }, c9RoundA, { c9RoundB with id := 3 }],
      isCalculated := true }
    rfl rfl (by decide) (by decide)
  exact h.1 (by decide)

theorem xidach_calculateMoney_ok (now : Nat) (s : XiDach.State) (st : XiDach.GameSetup)
    (H : XiDach.Player)
    (hsetup : s.setup = some st)
    (hfind : s.players.find? (fun p => p.isHouse) = some H)
    (hbet0 : XiDach.missingBetCount s.players = 0)
    (hres0 : XiDach.missingResultCount s.players = 0) :
    XiDach.calculateMoney now s =
      (Game.commitRound now st
        (XiDach.assignMoney (XiDach.houseDelta s.players) false s.players) s, none) := by
  unfold XiDach.calculateMoney
  rw [hsetup]
  simp [hfind, hbet0, hres0]

/-- C2: for every Banker session with exactly one designated banker and
every combination of win/lose results and (positive) bet amounts on the
non-banker players, settlement succeeds, each winning non-banker player
gets `+betAmount` and each losing one `-betAmount`, the banker gets the
sum of losing players' bets minus the sum of winning players' bets, and
the sum of all players' money (banker included) is 0. -/
theorem c2_banker (st : XiDach.GameSetup) (l₁ l₂ : List XiDach.Player) (H : XiDach.Player)
    (hist : List XiDach.Round) (flag : Bool) (now : Nat) (s : XiDach.State)
    (hs : s = { setup := some st, players := l₁ ++ H :: l₂, gameHistory := hist,
                isCalculated := flag })
    (hH : H.isHouse = true)
    (h₁ : ∀ p ∈ l₁, p.isHouse = false) (h₂ : ∀ p ∈ l₂, p.isHouse = false)
    (hbet : ∀ p ∈ l₁ ++ l₂, 0 < p.betAmount)
    (hres : ∀ p ∈ l₁ ++ l₂, p.result ≠ none) :
    (XiDach.calculateMoney now s).2 = none ∧
    (XiDach.calculateMoney now s).1.players.map (fun p => p.money) =
      l₁.map (fun p => if p.result = some .win then p.betAmount else -p.betAmount) ++
        ((((l₁ ++ l₂).filter fun p => p.result = some .lose).map fun p => p.betAmount).sum -
          (((l₁ ++ l₂).filter fun p => p.result = some .win).map fun p => p.betAmount).sum) ::
          l₂.map (fun p => if p.result = some .win then p.betAmount else -p.betAmount) ∧
    ((XiDach.calculateMoney now s).1.players.map (fun p => p.money)).sum = 0 := by
  subst hs
  have hfind := XiDach.find_house l₁ l₂ H hH h₁
  have hfilter := XiDach.filter_non_house l₁ l₂ H hH h₁ h₂
  have hbetnil : ((l₁ ++ l₂).filter fun p => p.betAmount ≤ 0) = [] :=
    list_filter_none _ fun p hp => by
      have := hbet p hp
      simp only [decide_eq_false_iff_not]
      omega
  have hresnil : ((l₁ ++ l₂).filter fun p => p.result = none) = [] :=
    list_filter_none _ fun p hp => by simp [hres p hp]
  have hbet0 : XiDach.missingBetCount (l₁ ++ H :: l₂) = 0 := by
    unfold XiDach.missingBetCount
    rw [hfilter, hbetnil]
    rfl
  have hres0 : XiDach.missingResultCount (l₁ ++ H :: l₂) = 0 := by
    unfold XiDach.missingResultCount
    rw [hfilter, hresnil]
    rfl
  rw [xidach_calculateMoney_ok now _ st H rfl hfind hbet0 hres0]
  have hplayers := Game.commitRound_players now st
    (XiDach.assignMoney (XiDach.houseDelta (l₁ ++ H :: l₂)) false (l₁ ++ H :: l₂))
    { setup := some st, players := l₁ ++ H :: l₂, gameHistory := hist,
      isCalculated := flag }
  have hmap' :
      (XiDach.assignMoney (XiDach.houseDelta (l₁ ++ H :: l₂)) false
          (l₁ ++ H :: l₂)).map (fun p => p.money) =
        l₁.map XiDach.nonHouseMoney ++
          XiDach.houseDelta (l₁ ++ H :: l₂) :: l₂.map XiDach.nonHouseMoney := by
    rw [XiDach.assignMoney_decomp _ l₁ l₂ H hH h₁ h₂]
    simp only [List.map_append, List.map_cons, List.map_map]
    have hpn : ∀ p : XiDach.Player,
        ((fun q : XiDach.Player => q.money) ∘ XiDach.payNonHouse) p =
          XiDach.nonHouseMoney p := fun p => rfl
    rw [List.map_congr_left fun p _ => hpn p, List.map_congr_left fun p _ => hpn p]
  have hnh : ∀ p : XiDach.Player, p.result ≠ none →
      XiDach.nonHouseMoney p =
        (if p.result = some .win then p.betAmount else -p.betAmount) := by
    intro p hp
    rcases h : p.result with _ | r
    · exact absurd h hp
    · cases r <;> simp [XiDach.nonHouseMoney, h]
  refine ⟨rfl, ?_, ?_⟩
  · rw [hplayers, hmap', XiDach.houseDelta_decomp l₁ l₂ H hH h₁ h₂]
    congr 1
    · exact List.map_congr_left fun p hp =>
        hnh p (hres p (List.mem_append.mpr (Or.inl hp)))
    · congr 1
      exact List.map_congr_left fun p hp =>
        hnh p (hres p (List.mem_append.mpr (Or.inr hp)))
  · rw [hplayers, hmap']
    rw [List.sum_append, List.sum_cons, XiDach.sum_nonHouseMoney l₁,
      XiDach.sum_nonHouseMoney l₂, XiDach.houseDelta_decomp l₁ l₂ H hH h₁ h₂,
      List.filter_append, List.map_append, List.sum_append,
      List.filter_append, List.map_append, List.sum_append]
    ring

/-- C2, witness (concrete scenario 2): banker p1, p2 bets 5000 and wins,
p3 bets 3000 and loses → money `{p1: -2000, p2: +5000, p3: -3000}`,
summing to 0. -/
theorem c2_witness :
    (XiDach.calculateMoney 0
        { setup := some { numberOfPlayers := 3, housePlayerId := 1 },
          players := [c2H, c2P2, c2P3], gameHistory := [], isCalculated := false }).2
      = none ∧
    (XiDach.calculateMoney 0
        { setup := some { numberOfPlayers := 3, housePlayerId := 1 },
          players := [c2H, c2P2, c2P3], gameHistory := [], isCalculated := false }).1.players.map
      (fun p => p.money) = [-2000, 5000, -3000] ∧
    ((XiDach.calculateMoney 0
        { setup := some { numberOfPlayers := 3, housePlayerId := 1 },
          players := [c2H, c2P2, c2P3], gameHistory := [], isCalculated := false }).1.players.map
      (fun p => p.money)).sum = 0 := by
  have h := c2_banker { numberOfPlayers := 3, housePlayerId := 1 } [] [c2P2, c2P3] c2H
    [] false 0
    { setup := some { numberOfPlayers := 3, housePlayerId := 1 },
      players := [c2H, c2P2, c2P3], gameHistory := [], isCalculated := false }
    rfl rfl (by decide) (by decide) (by decide) (by decide)
  refine ⟨h.1, ?_, h.2.2⟩
  rw [h.2.1]
  decide

theorem kachte_find_winner (l₁ l₂ : List KachTe.Player) (w : KachTe.Player)
    (hw : KachTe.isWinnerSel w = true) (h₁ : ∀ p ∈ l₁, p.isWinner = false) :
    (l₁ ++ w :: l₂).find? KachTe.isWinnerSel = some w := by
  induction l₁ with
  | nil => simp [List.find?_cons, hw]
  | cons a as ih =>
    have ha : KachTe.isWinnerSel a = false := by
      simp [KachTe.isWinnerSel, h₁ a (List.mem_cons_self a as)]
    have := ih fun p hp => h₁ p (List.mem_cons_of_mem _ hp)
    simpa [List.find?_cons, ha] using this

theorem kachte_assign_no_winner (wM b : Int) (fnd : Bool) {l : List KachTe.Player}
    (h : ∀ p ∈ l, p.isWinner = false) :
    KachTe.assignMoney wM b fnd l = l.map fun p => { p with money := -b } := by
  induction l generalizing fnd with
  | nil => rfl
  | cons p ps ih =>
    have hp := h p (List.mem_cons_self p ps)
    have := ih fnd fun q hq => h q (List.mem_cons_of_mem _ hq)
    simp [KachTe.assignMoney, KachTe.isWinnerSel, hp, this]

theorem kachte_assign_decomp (wM b : Int) (l₁ l₂ : List KachTe.Player) (w : KachTe.Player)
    (hw : KachTe.isWinnerSel w = true)
    (h₁ : ∀ p ∈ l₁, p.isWinner = false) (h₂ : ∀ p ∈ l₂, p.isWinner = false) :
    KachTe.assignMoney wM b false (l₁ ++ w :: l₂) =
      (l₁.map fun p => { p with money := -b }) ++
        { w with money := wM } :: (l₂.map fun p => { p with money := -b }) := by
  induction l₁ with
  | nil =>
    simp only [List.nil_append, List.map_nil]
    simp [KachTe.assignMoney, hw, kachte_assign_no_winner wM b true h₂]
  | cons a as ih =>
    have ha : KachTe.isWinnerSel a = false := by
      simp [KachTe.isWinnerSel, h₁ a (List.mem_cons_self a as)]
    have haw : a.isWinner = false := h₁ a (List.mem_cons_self a as)
    have := ih fun p hp => h₁ p (List.mem_cons_of_mem _ hp)
    simp [KachTe.assignMoney, ha, haw, this]

theorem kachte_setFirstById_decomp (pid : Nat) (w' : KachTe.Player)
    (m₁ m₂ : List KachTe.Player) (q : KachTe.Player)
    (hq : q.id = pid) (h₁ : ∀ p ∈ m₁, p.id ≠ pid) :
    KachTe.setFirstById pid w' (m₁ ++ q :: m₂) = m₁ ++ w' :: m₂ := by
  induction m₁ with
  | nil => simp [KachTe.setFirstById, hq]
  | cons a as ih =>
    have ha := h₁ a (List.mem_cons_self a as)
    have := ih fun p hp => h₁ p (List.mem_cons_of_mem _ hp)
    simp [KachTe.setFirstById, ha, this]

theorem kachte_calculateMoney_ok (now : Nat) (s : KachTe.State) (st : KachTe.GameSetup)
    (winner : KachTe.Player)
    (hsetup : s.setup = some st)
    (hfind : s.players.find? KachTe.isWinnerSel = some winner) :
    KachTe.calculateMoney now s =
      (Game.commitRound now st
        (KachTe.setFirstById winner.id
          { winner with money := ((st.numberOfPlayers : Int) - 1) *
              (if winner.winType = some .sapLang then st.sapLangBetAmount
               else st.defaultBetAmount) }
          (KachTe.assignMoney
            (((st.numberOfPlayers : Int) - 1) *
              (if winner.winType = some .sapLang then st.sapLangBetAmount
               else st.defaultBetAmount))
            (if winner.winType = some .sapLang then st.sapLangBetAmount
             else st.defaultBetAmount)
            false s.players)) s, none) := by
  unfold KachTe.calculateMoney
  rw [hsetup]
  simp [hfind]

/-- C3: for every Pot setup and every player list with exactly one winner
whose win type is set (and distinct player ids, the session invariant,
with the player count matching the setup), settlement succeeds using the
jackpot (`sap-lang`) bet amount when the win type is jackpot and the
default bet amount otherwise; the winner receives
`(numberOfPlayers - 1) * tierBet`, every other player pays `tierBet`, and
the sum of all players' money is 0. -/
theorem c3_pot (st : KachTe.GameSetup) (l₁ l₂ : List KachTe.Player) (w : KachTe.Player)
    (wt : KachTe.WinType) (hist : List KachTe.Round) (flag : Bool) (now : Nat)
    (s : KachTe.State)
    (hs : s = { setup := some st, players := l₁ ++ w :: l₂, gameHistory := hist,
                isCalculated := flag })
    (hw : w.isWinner = true) (hwt : w.winType = some wt)
    (h₁ : ∀ p ∈ l₁, p.isWinner = false ∧ p.id ≠ w.id)
    (h₂ : ∀ p ∈ l₂, p.isWinner = false)
    (hlen : l₁.length + 1 + l₂.length = st.numberOfPlayers) :
    (KachTe.calculateMoney now s).2 = none ∧
    (KachTe.calculateMoney now s).1.players.map (fun p => p.money) =
      (l₁.map fun _ => -(if wt = .sapLang then st.sapLangBetAmount
                         else st.defaultBetAmount)) ++
        (((st.numberOfPlayers : Int) - 1) *
            (if wt = .sapLang then st.sapLangBetAmount else st.defaultBetAmount)) ::
          (l₂.map fun _ => -(if wt = .sapLang then st.sapLangBetAmount
                             else st.defaultBetAmount)) ∧
    ((KachTe.calculateMoney now s).1.players.map (fun p => p.money)).sum = 0 := by
  subst hs
  have hwsel : KachTe.isWinnerSel w = true := by
    simp [KachTe.isWinnerSel, hw, hwt]
  have hfind := kachte_find_winner l₁ l₂ w hwsel fun p hp => (h₁ p hp).1
  rw [kachte_calculateMoney_ok now _ st w rfl hfind]
  rw [Game.commitRound_players]
  have htier :
      (if w.winType = some KachTe.WinType.sapLang then st.sapLangBetAmount
       else st.defaultBetAmount) =
      (if wt = KachTe.WinType.sapLang then st.sapLangBetAmount
       else st.defaultBetAmount) := by
    rw [hwt]
    simp
  rw [htier]
  rw [kachte_assign_decomp _ _ l₁ l₂ w hwsel (fun p hp => (h₁ p hp).1) h₂]
  rw [kachte_setFirstById_decomp w.id _ _ _ { w with money :=
        ((st.numberOfPlayers : Int) - 1) *
          (if wt = KachTe.WinType.sapLang then st.sapLangBetAmount
           else st.defaultBetAmount) }
      rfl
      (fun p hp => by
        rcases List.mem_map.mp hp with ⟨q, hq, rfl⟩
        exact (h₁ q hq).2)]
  refine ⟨rfl, ?_, ?_⟩
  · simp only [List.map_append, List.map_cons, List.map_map]
    have hmm : ∀ p : KachTe.Player,
        ((fun q : KachTe.Player => q.money) ∘ fun q : KachTe.Player =>
          { q with money := -(if wt = KachTe.WinType.sapLang then st.sapLangBetAmount
                              else st.defaultBetAmount) }) p =
        (fun _ : KachTe.Player =>
          -(if wt = KachTe.WinType.sapLang then st.sapLangBetAmount
            else st.defaultBetAmount)) p := fun p => rfl
    rw [List.map_congr_left fun p _ => hmm p, List.map_congr_left fun p _ => hmm p]
  · simp only [List.map_append, List.map_cons, List.map_map, List.sum_append,
      List.sum_cons]
    have hmm : ∀ p : KachTe.Player,
        ((fun q : KachTe.Player => q.money) ∘ fun q : KachTe.Player =>
          { q with money := -(if wt = KachTe.WinType.sapLang then st.sapLangBetAmount
                              else st.defaultBetAmount) }) p =
        (fun _ : KachTe.Player =>
          -(if wt = KachTe.WinType.sapLang then st.sapLangBetAmount
            else st.defaultBetAmount)) p := fun p => rfl
    rw [List.map_congr_left fun p _ => hmm p, List.map_congr_left fun p _ => hmm p,
      list_sum_map_const, list_sum_map_const]
    have hN : (st.numberOfPlayers : Int) - 1 = (l₁.length : Int) + l₂.length := by
      omega
    rw [hN]
    ring

/-- C3, witness (concrete scenario 3): 4 players, default bet 2000,
jackpot bet 5000, winner picks jackpot → winner +15000, each loser
-5000, summing to 0. -/
theorem c3_witness :
    (KachTe.calculateMoney 0
        { setup := some { numberOfPlayers := 4, defaultBetAmount := 2000,
                          sapLangBetAmount := 5000 },
          players := [c3W, c3L 2, c3L 3, c3L 4], gameHistory := [],
          isCalculated := false }).2 = none ∧
    (KachTe.calculateMoney 0
        { setup := some { numberOfPlayers := 4, defaultBetAmount := 2000,
                          sapLangBetAmount := 5000 },
          players := [c3W, c3L 2, c3L 3, c3L 4], gameHistory := [],
          isCalculated := false }).1.players.map (fun p => p.money) =
      [15000, -5000, -5000, -5000] ∧
    ((KachTe.calculateMoney 0
        { setup := some { numberOfPlayers := 4, defaultBetAmount := 2000,
                          sapLangBetAmount := 5000 },
          players := [c3W, c3L 2, c3L 3, c3L 4], gameHistory := [],
          isCalculated := false }).1.players.map (fun p => p.money)).sum = 0 := by
  have h := c3_pot
    { numberOfPlayers := 4, defaultBetAmount := 2000, sapLangBetAmount := 5000 }
    [] [c3L 2, c3L 3, c3L 4] c3W .sapLang [] false 0
    { setup := some { numberOfPlayers := 4, defaultBetAmount := 2000,
                      sapLangBetAmount := 5000 },
      players := [c3W, c3L 2, c3L 3, c3L 4], gameHistory := [], isCalculated := false }
    rfl rfl rfl (by decide) (by decide) (by decide)
  refine ⟨h.1, ?_, h.2.2⟩
  rw [h.2.1]
  decide

/-- C10: in a Banker session with a designated banker, whenever some
non-banker player has `betAmount <= 0`, `calculateMoney` performs no
settlement even when every result is set: it returns the prior state
completely unchanged (so no round is appended and no money changes)
together with the validation error counting the players without a bet. -/
theorem c10_nonpositive_bet (s : XiDach.State) (st : XiDach.GameSetup)
    (H : XiDach.Player) (now : Nat)
    (hsetup : s.setup = some st)
    (hfind : s.players.find? (fun p => p.isHouse) = some H)
    (_hres : ∀ p ∈ s.players, p.isHouse = false → p.result ≠ none)
    (hmiss : 0 < XiDach.missingBetCount s.players) :
    XiDach.calculateMoney now s =
      (s, some (.missingBet (XiDach.missingBetCount s.players))) := by
  unfold XiDach.calculateMoney
  rw [hsetup]
  simp [hfind, hmiss]

/-- C10, witness: with every result set but one zero bet, the Banker
`calculateMoney` reports 1 player without a bet and returns the state —
ledger and money included — unchanged. -/
theorem c10_witness :
    XiDach.calculateMoney 8 c10State = (c10State, some (.missingBet 1)) := by
  have h := c10_nonpositive_bet c10State { numberOfPlayers := 3, housePlayerId := 1 }
    c2H 8 rfl (by decide) (by decide) (by decide)
  exact h.trans (by decide)

namespace TienLen

theorem map_ite_id_of_countP_zero (pred : Player → Bool) (f : Player → Player)
    {l : List Player} (h : l.countP pred = 0) :
    (l.map fun p => if pred p then f p else p) = l := by
  induction l with
  | nil => rfl
  | cons p ps ih =>
    rw [List.countP_cons] at h
    by_cases hp : pred p
    · simp [hp] at h
    · have h0 : ps.countP pred = 0 := by omega
      simp [hp, ih h0]

theorem updateFirst_eq_map (pred : Player → Bool) (f : Player → Player) :
    ∀ l : List Player, l.countP pred ≤ 1 →
      updateFirst pred f l = l.map fun p => if pred p then f p else p := by
  intro l
  induction l with
  | nil => intro _; rfl
  | cons p ps ih =>
    intro h
    rw [List.countP_cons] at h
    by_cases hp : pred p = true
    · have h' : ps.countP pred + 1 ≤ 1 := by rwa [if_pos hp] at h
      have h0 : ps.countP pred = 0 := by omega
      simp only [updateFirst, List.map_cons]
      rw [if_pos hp, if_pos hp, map_ite_id_of_countP_zero pred f h0]
    · have h' : ps.countP pred + 0 ≤ 1 := by rwa [if_neg hp] at h
      have h1 : ps.countP pred ≤ 1 := by omega
      simp only [updateFirst, List.map_cons]
      rw [if_neg hp, if_neg hp, ih h1]

theorem countP_position_map (predo : Option Position → Bool) (f : Player → Player)
    (hf : ∀ p, (f p).position = p.position) (l : List Player) :
    (l.map f).countP (fun p => predo p.position) = l.countP (fun p => predo p.position) := by
  rw [List.countP_map]
  congr 1
  funext p
  simp [Function.comp, hf]

theorem updateFirst_pos_eq_map (x : Position) (v : Int) (l : List Player)
    (h : l.countP (fun p => p.position = some x) ≤ 1) :
    updateFirst (fun p => p.position = some x) (fun p => { p with money := v }) l =
      l.map fun p => if p.position = some x then { p with money := v } else p := by
  rw [updateFirst_eq_map _ _ l h]
  simp only [decide_eq_true_eq]

theorem position_ite (x : Position) (v : Int) (p : Player) :
    (if p.position = some x then { p with money := v } else p).position = p.position := by
  split <;> rfl

/-- Under truthy levels and at-most-one player per position, the tiered
branch of `applyRule` is the pointwise `tieredMoney` assignment. -/
theorem applyRule_tiered_eq_map (st : GameSetup) (l1 l2 : Int) (P : List Player)
    (hrule : st.rule = .nhatAnBetNhiAnBa)
    (hl1 : st.betLevel1 = some l1) (hne1 : l1 ≠ 0)
    (hl2 : st.betLevel2 = some l2) (hne2 : l2 ≠ 0)
    (cbet : P.countP (fun p => p.position = some .bet) ≤ 1)
    (cba : P.countP (fun p => p.position = some .ba) ≤ 1)
    (cnhat : P.countP (fun p => p.position = some .nhat) ≤ 1)
    (cnhi : P.countP (fun p => p.position = some .nhi) ≤ 1) :
    applyRule st P = P.map (tieredMoney l1 l2) := by
  unfold applyRule
  rw [hrule]
  simp only [hl1, hl2, Option.getD_some]
  rw [if_pos (show (truthy (some l1) && truthy (some l2)) = true by
    simp [truthy, hne1, hne2])]
  rw [updateFirst_pos_eq_map Position.bet (-l1) P cbet]
  rw [updateFirst_pos_eq_map Position.ba (-l2)
    (P.map fun p => if p.position = some Position.bet then { p with money := -l1 } else p)
    (le_of_eq_of_le
      (countP_position_map (fun o => decide (o = some Position.ba))
        (fun p => if p.position = some Position.bet then { p with money := -l1 } else p)
        (fun p => position_ite Position.bet (-l1) p) P) cba)]
  rw [List.map_map]
  rw [updateFirst_pos_eq_map Position.nhat l1
    (P.map ((fun p => if p.position = some Position.ba then { p with money := -l2 } else p) ∘
      fun p => if p.position = some Position.bet then { p with money := -l1 } else p))
    (le_of_eq_of_le
      (countP_position_map (fun o => decide (o = some Position.nhat))
        ((fun p => if p.position = some Position.ba then { p with money := -l2 } else p) ∘
          fun p => if p.position = some Position.bet then { p with money := -l1 } else p)
        (fun p => by
          by_cases h1 : p.position = some Position.bet <;>
            by_cases h2 : p.position = some Position.ba <;>
              simp [Function.comp, h1, h2]) P) cnhat)]
  rw [List.map_map]
  rw [updateFirst_pos_eq_map Position.nhi l2
    (P.map ((fun p => if p.position = some Position.nhat then { p with money := l1 } else p) ∘
      ((fun p => if p.position = some Position.ba then { p with money := -l2 } else p) ∘
        fun p => if p.position = some Position.bet then { p with money := -l1 } else p)))
    (le_of_eq_of_le
      (countP_position_map (fun o => decide (o = some Position.nhi))
        ((fun p => if p.position = some Position.nhat then { p with money := l1 } else p) ∘
          ((fun p => if p.position = some Position.ba then { p with money := -l2 } else p) ∘
            fun p => if p.position = some Position.bet then { p with money := -l1 } else p))
        (fun p => by
          by_cases h1 : p.position = some Position.bet <;>
            by_cases h2 : p.position = some Position.ba <;>
              by_cases h3 : p.position = some Position.nhat <;>
                simp [Function.comp, h1, h2, h3]) P) cnhi)]
  rw [List.map_map]
  apply List.map_congr_left
  intro p _
  rcases hp : p.position with _ | pos
  · simp [Function.comp, hp, tieredMoney]
  · cases pos <;> simp [Function.comp, hp, tieredMoney]

end TienLen

/-- C4, counterexample: with the tiered rule and bet levels set to 0, the
truthiness guard skips the settlement entirely and money is never reset,
so adjustments accumulate: after a settle and a recompute (both
successful), the `bet` player's pre-adjustment money is 7, not
`-betLevel1 = 0`, and the pre-adjustment sum is 7, not 0. -/
theorem c4_counterexample :
    c4State.setup = some c4Setup ∧
    c4Setup.rule = .nhatAnBetNhiAnBa ∧
    c4Setup.betLevel1 = some 0 ∧ c4Setup.betLevel2 = some 0 ∧
    c4State.players.map (fun p => p.position) =
      [some .nhat, some .nhi, some .ba, some .bet] ∧
    (TienLen.calculateMoney 0 c4State).2 = none ∧
    (TienLen.calculateMoney 1 (TienLen.calculateMoney 0 c4State).1).2 = none ∧
    (TienLen.calculateMoney 1 (TienLen.calculateMoney 0 c4State).1).1.players.map
      (fun p => p.money - p.adjustments) = [0, 0, 0, 7] ∧
    ((TienLen.calculateMoney 1 (TienLen.calculateMoney 0 c4State).1).1.players.map
      (fun p => p.money - p.adjustments)).sum ≠ 0 := by
  decide

/-- C4, amended (with the additional hypothesis, forced by the
counterexample, that both bet levels are nonzero): for every tiered-rule
Ladder setup with nonzero levels and every player list holding the four
positions `nhat`/`nhi`/`ba`/`bet` exactly once each, settlement succeeds
and assigns, pre-adjustment, `-level1` to the `bet` player, `+level1` to
the `nhat` player, `-level2` to the `ba` player and `+level2` to the
`nhi` player — two pairwise transfers — so the pre-adjustment sum over
all players is 0. -/
theorem c4_amended (st : TienLen.GameSetup) (l1 l2 : Int) (P : List TienLen.Player)
    (hist : List TienLen.Round) (flag : Bool) (now : Nat) (s : TienLen.State)
    (hs : s = { setup := some st, players := P, gameHistory := hist,
                isCalculated := flag })
    (hrule : st.rule = .nhatAnBetNhiAnBa)
    (hl1 : st.betLevel1 = some l1) (hne1 : l1 ≠ 0)
    (hl2 : st.betLevel2 = some l2) (hne2 : l2 ≠ 0)
    (hperm : (P.map fun p => p.position).Perm
      [some .nhat, some .nhi, some .ba, some .bet]) :
    (TienLen.calculateMoney now s).2 = none ∧
    (TienLen.calculateMoney now s).1.players.map
        (fun p => (p.position, p.money - p.adjustments)) =
      P.map (fun p => (p.position, TienLen.tieredPayout l1 l2 p.position)) ∧
    ((TienLen.calculateMoney now s).1.players.map
        (fun p => p.money - p.adjustments)).sum = 0 := by
  subst hs
  have hsome : ∀ p ∈ P, p.position ≠ none := by
    intro p hp hnone
    have hm : p.position ∈ P.map fun p => p.position := List.mem_map_of_mem _ hp
    rw [hperm.mem_iff, hnone] at hm
    simp at hm
  have hval : TienLen.missingPositionCount P = 0 :=
    TienLen.missingPositionCount_eq_zero hsome
  have hcount : ∀ x : TienLen.Position,
      P.countP (fun p => p.position = some x) ≤ 1 := by
    intro x
    have h1 : P.countP (fun p => p.position = some x) =
        (P.map fun p => p.position).countP (fun o => o = some x) := by
      rw [List.countP_map]
      rfl
    rw [h1, hperm.countP_eq]
    cases x <;> decide
  rw [TienLen.calculateMoney_ok now _ st rfl hval]
  rw [TienLen.applyRule_tiered_eq_map st l1 l2 P hrule hl1 hne1 hl2 hne2
    (hcount .bet) (hcount .ba) (hcount .nhat) (hcount .nhi)]
  rw [Game.commitRound_players]
  have hb : (TienLen.applyAdjustments (P.map (TienLen.tieredMoney l1 l2))).map
        (fun p => (p.position, p.money - p.adjustments)) =
      P.map (fun p => (p.position, TienLen.tieredPayout l1 l2 p.position)) := by
    simp only [TienLen.applyAdjustments, List.map_map]
    apply List.map_congr_left
    intro p hp
    rcases hx : p.position with _ | pos
    · exact absurd hx (hsome p hp)
    · cases pos <;>
        simp [Function.comp, TienLen.tieredMoney, TienLen.tieredPayout, hx]
  have hc : (TienLen.applyAdjustments (P.map (TienLen.tieredMoney l1 l2))).map
        (fun p => p.money - p.adjustments) =
      P.map (fun p => TienLen.tieredPayout l1 l2 p.position) := by
    simp only [TienLen.applyAdjustments, List.map_map]
    apply List.map_congr_left
    intro p hp
    rcases hx : p.position with _ | pos
    · exact absurd hx (hsome p hp)
    · cases pos <;>
        simp [Function.comp, TienLen.tieredMoney, TienLen.tieredPayout, hx]
  refine ⟨rfl, hb, ?_⟩
  rw [hc]
  have hsum : (P.map fun p => TienLen.tieredPayout l1 l2 p.position) =
      (P.map fun p => p.position).map (TienLen.tieredPayout l1 l2) := by
    rw [List.map_map]
    rfl
  rw [hsum, List.Perm.sum_eq (hperm.map (TienLen.tieredPayout l1 l2))]
  simp [TienLen.tieredPayout]

/-- C4, witness: tiered rule with levels 5000/3000 and the four positions
held once each → pre-adjustment money `nhat: +5000`, `nhi: +3000`,
`ba: -3000`, `bet: -5000`, summing to 0. -/
theorem c4_witness :
    (TienLen.calculateMoney 0 c4wState).2 = none ∧
    (TienLen.calculateMoney 0 c4wState).1.players.map
        (fun p => (p.position, p.money - p.adjustments)) =
      [(some .nhat, 5000), (some .nhi, 3000), (some .ba, -3000), (some .bet, -5000)] ∧
    ((TienLen.calculateMoney 0 c4wState).1.players.map
        (fun p => p.money - p.adjustments)).sum = 0 := by
  have h := c4_amended c4wSetup 5000 3000 c4wState.players [] false 0 c4wState
    rfl rfl rfl (by decide) rfl (by decide) (by decide)
  refine ⟨h.1, ?_, h.2.2⟩
  rw [h.2.1]
  decide

theorem list_filter_nil_all {α : Type} (pred : α → Bool) {l : List α}
    (h : l.filter pred = []) : ∀ a ∈ l, pred a = false := by
  intro a ha
  by_contra hp
  have : a ∈ l.filter pred := List.mem_filter.mpr ⟨ha, by simpa using hp⟩
  rw [h] at this
  exact absurd this (List.not_mem_nil a)

theorem list_nodup_countP_le_one {α : Type} [DecidableEq α] {l : List α}
    (h : l.Nodup) (a : α) : l.countP (fun o => o = a) ≤ 1 := by
  induction l with
  | nil => simp
  | cons b bs ih =>
    rw [List.countP_cons]
    have hb : b ∉ bs := (List.nodup_cons.mp h).1
    have hbs : bs.Nodup := (List.nodup_cons.mp h).2
    by_cases hba : b = a
    · have h0 : bs.countP (fun o => o = a) = 0 := by
        have : bs.filter (fun o => o = a) = [] :=
          list_filter_none _ fun o ho => by
            subst hba
            simp only [decide_eq_false_iff_not]
            intro hoa
            exact hb (hoa ▸ ho)
        rw [List.countP_eq_length_filter, this]
        rfl
      simp [hba, h0]
    · have := ih hbs
      simp [hba]
      omega

namespace TienLen

theorem applyRule_nhatAnHet_eq_map (st : GameSetup) (P : List Player)
    (hrule : st.rule = .nhatAnHet) :
    applyRule st P = P.map fun p =>
      if p.position = some .nhat then
        { p with money := st.betAmount * ((st.numberOfPlayers : Int) - 1) }
      else { p with money := -st.betAmount } := by
  unfold applyRule
  rw [hrule]

theorem tieredMoney_position (l1 l2 : Int) (p : Player) :
    (tieredMoney l1 l2 p).position = p.position := by
  unfold tieredMoney
  rcases hp : p.position with _ | pos
  · simp [hp]
  · cases pos <;> simp [hp]

theorem missingPositionCount_map (f : Player → Player)
    (hf : ∀ p, (f p).position = p.position) (l : List Player) :
    missingPositionCount (l.map f) = missingPositionCount l := by
  unfold missingPositionCount
  rw [← List.countP_eq_length_filter, ← List.countP_eq_length_filter]
  exact countP_position_map (fun o => decide (o = none)) f hf l

theorem position_some_of_missing_zero {l : List Player}
    (h : missingPositionCount l = 0) : ∀ p ∈ l, p.position ≠ none := by
  have hnil : l.filter (fun p => p.position = none) = [] := by
    unfold missingPositionCount at h
    exact List.length_eq_zero.mp h
  intro p hp
  have := list_filter_nil_all _ hnil p hp
  simpa using this

theorem calculateMoney_success_missing_zero (now : Nat) (s : State) (st : GameSetup)
    (hsetup : s.setup = some st)
    (hsucc : (calculateMoney now s).2 = none) :
    missingPositionCount s.players = 0 := by
  by_contra hne
  have hpos : 0 < missingPositionCount s.players := Nat.pos_of_ne_zero hne
  rw [calculateMoney_missing now s st hsetup hpos] at hsucc
  simp at hsucc

theorem updateFirst_position_map (pred : Player → Bool) (f : Player → Player)
    (hf : ∀ p, (f p).position = p.position) :
    ∀ l : List Player,
      (updateFirst pred f l).map (fun p => p.position) = l.map fun p => p.position := by
  intro l
  induction l with
  | nil => rfl
  | cons p ps ih =>
    by_cases hp : pred p = true
    · simp [updateFirst, hp, hf]
    · simp [updateFirst, hp, ih]

theorem applyRule_position_map (st : GameSetup) (P : List Player) :
    (applyRule st P).map (fun p => p.position) = P.map fun p => p.position := by
  unfold applyRule
  rcases st.rule with _ | _
  · rw [List.map_map]
    apply List.map_congr_left
    intro p _
    by_cases hp : p.position = some Position.nhat <;> simp [Function.comp, hp]
  · by_cases hg : (truthy st.betLevel1 && truthy st.betLevel2) = true
    · rw [if_pos hg]
      rw [updateFirst_position_map _ _ (fun p => by
          by_cases h : (decide (p.position = some Position.nhi)) = true <;> simp [h]),
        updateFirst_position_map _ _ (fun p => by
          by_cases h : (decide (p.position = some Position.nhat)) = true <;> simp [h]),
        updateFirst_position_map _ _ (fun p => by
          by_cases h : (decide (p.position = some Position.ba)) = true <;> simp [h]),
        updateFirst_position_map _ _ (fun p => by
          by_cases h : (decide (p.position = some Position.bet)) = true <;> simp [h])]
    · rw [if_neg hg]

theorem applyAdjustments_position_map (l : List Player) :
    (applyAdjustments l).map (fun p => p.position) = l.map fun p => p.position := by
  unfold applyAdjustments
  rw [List.map_map]
  apply List.map_congr_left
  intro p _
  rfl

theorem missingPositionCount_of_map_eq {l l' : List Player}
    (h : l.map (fun p => p.position) = l'.map fun p => p.position) :
    missingPositionCount l = missingPositionCount l' := by
  have e : ∀ m : List Player,
      missingPositionCount m = (m.map fun p => p.position).countP fun o => o = none := by
    intro m
    rw [missingPositionCount, ← List.countP_eq_length_filter, List.countP_map]
    rfl
  rw [e, e, h]

theorem countP_position_of_map_eq {l l' : List Player}
    (h : l.map (fun p => p.position) = l'.map fun p => p.position) (x : Position) :
    l.countP (fun p => p.position = some x) = l'.countP fun p => p.position = some x := by
  have e : ∀ m : List Player,
      m.countP (fun p => p.position = some x) =
        (m.map fun p => p.position).countP fun o => o = some x := by
    intro m
    rw [List.countP_map]
    rfl
  rw [e, e, h]

theorem nhatAnHet_idem (st : GameSetup) (P : List Player)
    (hrule : st.rule = .nhatAnHet) :
    applyAdjustments (applyRule st (applyAdjustments (applyRule st P))) =
      applyAdjustments (applyRule st P) := by
  rw [applyRule_nhatAnHet_eq_map st _ hrule, applyRule_nhatAnHet_eq_map st P hrule]
  unfold applyAdjustments
  simp only [List.map_map]
  apply List.map_congr_left
  intro p _
  by_cases hp : p.position = some Position.nhat <;> simp [Function.comp, hp]

theorem tiered_idem (st : GameSetup) (P : List Player) (l1 l2 : Int)
    (hrule : st.rule = .nhatAnBetNhiAnBa)
    (hl1 : st.betLevel1 = some l1) (hne1 : l1 ≠ 0)
    (hl2 : st.betLevel2 = some l2) (hne2 : l2 ≠ 0)
    (hnodup : (P.map fun p => p.position).Nodup)
    (hsome : ∀ p ∈ P, p.position ≠ none) :
    applyAdjustments (applyRule st (applyAdjustments (applyRule st P))) =
      applyAdjustments (applyRule st P) := by
  have hcount : ∀ x : Position, P.countP (fun p => p.position = some x) ≤ 1 := by
    intro x
    have h1 : P.countP (fun p => p.position = some x) =
        (P.map fun p => p.position).countP fun o => o = some x := by
      rw [List.countP_map]
      rfl
    rw [h1]
    exact list_nodup_countP_le_one hnodup (some x)
  have hA1 := applyRule_tiered_eq_map st l1 l2 P hrule hl1 hne1 hl2 hne2
    (hcount .bet) (hcount .ba) (hcount .nhat) (hcount .nhi)
  have hmapinner : (applyAdjustments (applyRule st P)).map (fun p => p.position) =
      P.map fun p => p.position := by
    rw [applyAdjustments_position_map, applyRule_position_map]
  have hcount2 : ∀ x : Position,
      (applyAdjustments (applyRule st P)).countP (fun p => p.position = some x) ≤ 1 :=
    fun x => le_of_eq_of_le (countP_position_of_map_eq hmapinner x) (hcount x)
  have hA2 := applyRule_tiered_eq_map st l1 l2 (applyAdjustments (applyRule st P))
    hrule hl1 hne1 hl2 hne2 (hcount2 .bet) (hcount2 .ba) (hcount2 .nhat) (hcount2 .nhi)
  rw [hA2, hA1]
  unfold applyAdjustments
  simp only [List.map_map]
  apply List.map_congr_left
  intro p hp
  rcases hx : p.position with _ | pos
  · exact absurd hx (hsome p hp)
  · cases pos <;> simp [Function.comp, tieredMoney, hx]

/-- Idempotent recompute for the Ladder calculator: under a live setup
whose tiered rule (when selected) has nonzero levels and distinct
positions, a second `calculateMoney` with unchanged inputs succeeds,
leaves every player identical and the ledger length unchanged. -/
theorem tl_recalc_idempotent (s : State) (st : GameSetup) (now now' : Nat)
    (hsetup : s.setup = some st)
    (htier : st.rule = .nhatAnBetNhiAnBa →
      (∃ x, st.betLevel1 = some x ∧ x ≠ 0) ∧ (∃ y, st.betLevel2 = some y ∧ y ≠ 0) ∧
        (s.players.map fun p => p.position).Nodup)
    (hsucc : (calculateMoney now s).2 = none) :
    (calculateMoney now' (calculateMoney now s).1).2 = none ∧
    (calculateMoney now' (calculateMoney now s).1).1.players =
      (calculateMoney now s).1.players ∧
    (calculateMoney now' (calculateMoney now s).1).1.gameHistory.length =
      (calculateMoney now s).1.gameHistory.length := by
  have hval := calculateMoney_success_missing_zero now s st hsetup hsucc
  have hcalc1 := calculateMoney_ok now s st hsetup hval
  have hs1p : (calculateMoney now s).1.players =
      applyAdjustments (applyRule st s.players) := by
    rw [hcalc1]; exact Game.commitRound_players ..
  have hs1setup : (calculateMoney now s).1.setup = some st := by
    rw [hcalc1, Game.commitRound_setup]; exact hsetup
  have hs1calc : (calculateMoney now s).1.isCalculated = true := by
    rw [hcalc1]; exact Game.commitRound_isCalculated ..
  have hs1len : 0 < (calculateMoney now s).1.gameHistory.length := by
    rw [hcalc1]; exact Game.commitRound_history_length_pos ..
  have hmapinner : (applyAdjustments (applyRule st s.players)).map (fun p => p.position) =
      s.players.map fun p => p.position := by
    rw [applyAdjustments_position_map, applyRule_position_map]
  have hval2 : missingPositionCount (calculateMoney now s).1.players = 0 := by
    rw [hs1p, missingPositionCount_of_map_eq hmapinner]
    exact hval
  have hcalc2 := calculateMoney_ok now' (calculateMoney now s).1 st hs1setup hval2
  have hplayers2 : (calculateMoney now' (calculateMoney now s).1).1.players =
      applyAdjustments (applyRule st (calculateMoney now s).1.players) := by
    rw [hcalc2]; exact Game.commitRound_players ..
  have hidem : applyAdjustments (applyRule st (applyAdjustments (applyRule st s.players))) =
      applyAdjustments (applyRule st s.players) := by
    rcases hr : st.rule with _ | _
    · exact nhatAnHet_idem st s.players hr
    · obtain ⟨⟨x, hx, hxne⟩, ⟨y, hy, hyne⟩, hnodup⟩ := htier hr
      exact tiered_idem st s.players x y hr hx hxne hy hyne hnodup
        (position_some_of_missing_zero hval)
  refine ⟨by rw [hcalc2], ?_, ?_⟩
  · rw [hplayers2, hs1p, hidem]
  · rw [hcalc2]
    have := Game.commitRound_replace now' st
      (applyAdjustments (applyRule st (calculateMoney now s).1.players))
      (calculateMoney now s).1 ⟨hs1calc, hs1len⟩
    simp only [this, Game.replaceLast_length]

end TienLen

namespace KachTe

theorem commitRound_length_of_calculated {π σ : Type} (now : Nat) (st : σ)
    (ps : List π) (s : Game.GState π σ)
    (h : s.isCalculated ∧ 0 < s.gameHistory.length) :
    (Game.commitRound now st ps s).gameHistory.length = s.gameHistory.length := by
  rw [Game.commitRound_replace now st ps s h, Game.replaceLast_length]

theorem kt_pay_map_idem (b : Int) (l : List Player) :
    ((l.map fun p => { p with money := -b }).map fun p => { p with money := -b }) =
      l.map fun p => { p with money := -b } := by
  rw [List.map_map]
  apply List.map_congr_left
  intro p _
  rfl

/-- Idempotent recompute for the Pot calculator: with exactly one winner
(win type set) and fresh ids on the other players, a second
`calculateMoney` succeeds, leaves every player identical and the ledger
length unchanged. -/
theorem kt_recalc_idempotent (st : GameSetup) (l₁ l₂ : List Player) (w : Player)
    (hist : List Round) (flag : Bool) (now now' : Nat) (s : State)
    (hs : s = { setup := some st, players := l₁ ++ w :: l₂, gameHistory := hist,
                isCalculated := flag })
    (hw : w.isWinner = true) (hwt : w.winType.isSome = true)
    (h₁ : ∀ p ∈ l₁, p.isWinner = false ∧ p.id ≠ w.id)
    (h₂ : ∀ p ∈ l₂, p.isWinner = false) :
    (calculateMoney now s).2 = none ∧
    (calculateMoney now' (calculateMoney now s).1).2 = none ∧
    (calculateMoney now' (calculateMoney now s).1).1.players =
      (calculateMoney now s).1.players ∧
    (calculateMoney now' (calculateMoney now s).1).1.gameHistory.length =
      (calculateMoney now s).1.gameHistory.length := by
  have hsetup0 : s.setup = some st := by rw [hs]
  have hplayers0 : s.players = l₁ ++ w :: l₂ := by rw [hs]
  have hwsel : isWinnerSel w = true := by simp [isWinnerSel, hw, hwt]
  have hfind : s.players.find? isWinnerSel = some w := by
    rw [hplayers0]
    exact kachte_find_winner l₁ l₂ w hwsel fun p hp => (h₁ p hp).1
  have hcalc1 := kachte_calculateMoney_ok now s st w hsetup0 hfind
  set bet : Int := if w.winType = some .sapLang then st.sapLangBetAmount
    else st.defaultBetAmount with hbet
  set wM : Int := ((st.numberOfPlayers : Int) - 1) * bet with hwM
  set f : Player → Player := fun p => { p with money := -bet } with hf
  have hNP : setFirstById w.id { w with money := wM }
      (assignMoney wM bet false s.players) =
      l₁.map f ++ { w with money := wM } :: l₂.map f := by
    rw [hplayers0]
    rw [kachte_assign_decomp wM bet l₁ l₂ w hwsel (fun p hp => (h₁ p hp).1) h₂]
    exact kachte_setFirstById_decomp w.id { w with money := wM }
      (l₁.map f) (l₂.map f) { w with money := wM } rfl
      (fun p hp => by
        rcases List.mem_map.mp hp with ⟨q, hq, rfl⟩
        exact (h₁ q hq).2)
  have hs1p : (calculateMoney now s).1.players =
      l₁.map f ++ { w with money := wM } :: l₂.map f := by
    rw [hcalc1]
    rw [Game.commitRound_players]
    exact hNP
  have hs1setup : (calculateMoney now s).1.setup = some st := by
    rw [hcalc1, Game.commitRound_setup]; exact hsetup0
  have hs1calc : (calculateMoney now s).1.isCalculated = true := by
    rw [hcalc1]; exact Game.commitRound_isCalculated ..
  have hs1len : 0 < (calculateMoney now s).1.gameHistory.length := by
    rw [hcalc1]; exact Game.commitRound_history_length_pos ..
  have hwsel' : isWinnerSel { w with money := wM } = true := by
    simp [isWinnerSel, hw, hwt]
  have h₁' : ∀ p ∈ l₁.map f, p.isWinner = false := by
    intro p hp
    rcases List.mem_map.mp hp with ⟨q, hq, rfl⟩
    exact (h₁ q hq).1
  have hfind2 : (calculateMoney now s).1.players.find? isWinnerSel =
      some { w with money := wM } := by
    rw [hs1p]
    exact kachte_find_winner (l₁.map f) (l₂.map f) { w with money := wM } hwsel' h₁'
  have hcalc2 := kachte_calculateMoney_ok now' (calculateMoney now s).1 st
    { w with money := wM } hs1setup hfind2
  have hbet2 : (if ({ w with money := wM } : Player).winType = some WinType.sapLang
      then st.sapLangBetAmount else st.defaultBetAmount) = bet := by
    rw [hbet]
  have hNP2 : setFirstById ({ w with money := wM } : Player).id
      { ({ w with money := wM } : Player) with money :=
          ((st.numberOfPlayers : Int) - 1) *
            (if ({ w with money := wM } : Player).winType = some WinType.sapLang
             then st.sapLangBetAmount else st.defaultBetAmount) }
      (assignMoney
        (((st.numberOfPlayers : Int) - 1) *
          (if ({ w with money := wM } : Player).winType = some WinType.sapLang
           then st.sapLangBetAmount else st.defaultBetAmount))
        (if ({ w with money := wM } : Player).winType = some WinType.sapLang
         then st.sapLangBetAmount else st.defaultBetAmount)
        false (calculateMoney now s).1.players) =
      (calculateMoney now s).1.players := by
    rw [hbet2, hs1p, ← hwM]
    rw [kachte_assign_decomp wM bet (l₁.map f) (l₂.map f) { w with money := wM }
      hwsel' h₁' (fun p hp => by
        rcases List.mem_map.mp hp with ⟨q, hq, rfl⟩
        exact h₂ q hq)]
    rw [kt_pay_map_idem, kt_pay_map_idem]
    exact kachte_setFirstById_decomp w.id _ (l₁.map f) (l₂.map f)
      { ({ w with money := wM } : Player) with money := wM } rfl
      (fun p hp => by
        rcases List.mem_map.mp hp with ⟨q, hq, rfl⟩
        exact (h₁ q hq).2)
  refine ⟨by rw [hcalc1], by rw [hcalc2], ?_, ?_⟩
  · rw [hcalc2]
    rw [Game.commitRound_players]
    exact hNP2
  · rw [hcalc2]
    exact commitRound_length_of_calculated now' st _ (calculateMoney now s).1
      ⟨hs1calc, hs1len⟩

end KachTe

namespace XiDach

theorem filter_result_map_payNonHouse (r : GResult) (l : List Player) :
    ((l.map payNonHouse).filter fun p => p.result = some r).map (fun p => p.betAmount) =
      (l.filter fun p => p.result = some r).map fun p => p.betAmount := by
  induction l with
  | nil => rfl
  | cons p ps ih =>
    by_cases h : p.result = some r <;>
      simp [List.filter_cons, payNonHouse, h, ih]

theorem xd_pay_map_idem (l : List Player) :
    ((l.map payNonHouse).map payNonHouse) = l.map payNonHouse := by
  rw [List.map_map]
  apply List.map_congr_left
  intro p _
  rfl

/-- Idempotent recompute for the Banker calculator: with exactly one
banker and complete inputs, a second `calculateMoney` succeeds, leaves
every player identical and the ledger length unchanged. -/
theorem xd_recalc_idempotent (st : GameSetup) (l₁ l₂ : List Player) (H : Player)
    (hist : List Round) (flag : Bool) (now now' : Nat) (s : State)
    (hs : s = { setup := some st, players := l₁ ++ H :: l₂, gameHistory := hist,
                isCalculated := flag })
    (hH : H.isHouse = true)
    (h₁ : ∀ p ∈ l₁, p.isHouse = false) (h₂ : ∀ p ∈ l₂, p.isHouse = false)
    (hbet : ∀ p ∈ l₁ ++ l₂, 0 < p.betAmount)
    (hres : ∀ p ∈ l₁ ++ l₂, p.result ≠ none) :
    (calculateMoney now s).2 = none ∧
    (calculateMoney now' (calculateMoney now s).1).2 = none ∧
    (calculateMoney now' (calculateMoney now s).1).1.players =
      (calculateMoney now s).1.players ∧
    (calculateMoney now' (calculateMoney now s).1).1.gameHistory.length =
      (calculateMoney now s).1.gameHistory.length := by
  have hsetup0 : s.setup = some st := by rw [hs]
  have hplayers0 : s.players = l₁ ++ H :: l₂ := by rw [hs]
  have hfind : s.players.find? (fun p => p.isHouse) = some H := by
    rw [hplayers0]; exact find_house l₁ l₂ H hH h₁
  have hbetnil : ((l₁ ++ l₂).filter fun p => p.betAmount ≤ 0) = [] :=
    list_filter_none _ fun p hp => by
      have := hbet p hp
      simp only [decide_eq_false_iff_not]
      omega
  have hresnil : ((l₁ ++ l₂).filter fun p => p.result = none) = [] :=
    list_filter_none _ fun p hp => by simp [hres p hp]
  have hbet0 : missingBetCount s.players = 0 := by
    rw [hplayers0]
    unfold missingBetCount
    rw [filter_non_house l₁ l₂ H hH h₁ h₂, hbetnil]
    rfl
  have hres0 : missingResultCount s.players = 0 := by
    rw [hplayers0]
    unfold missingResultCount
    rw [filter_non_house l₁ l₂ H hH h₁ h₂, hresnil]
    rfl
  have hcalc1 := xidach_calculateMoney_ok now s st H hsetup0 hfind hbet0 hres0
  have hNP : assignMoney (houseDelta s.players) false s.players =
      l₁.map payNonHouse ++
        { H with money := houseDelta s.players } :: l₂.map payNonHouse := by
    rw [hplayers0]
    exact assignMoney_decomp _ l₁ l₂ H hH h₁ h₂
  have hs1p : (calculateMoney now s).1.players =
      l₁.map payNonHouse ++
        { H with money := houseDelta s.players } :: l₂.map payNonHouse := by
    rw [hcalc1]
    rw [Game.commitRound_players]
    exact hNP
  have hs1setup : (calculateMoney now s).1.setup = some st := by
    rw [hcalc1, Game.commitRound_setup]; exact hsetup0
  have hs1calc : (calculateMoney now s).1.isCalculated = true := by
    rw [hcalc1]; exact Game.commitRound_isCalculated ..
  have hs1len : 0 < (calculateMoney now s).1.gameHistory.length := by
    rw [hcalc1]; exact Game.commitRound_history_length_pos ..
  have h₁' : ∀ p ∈ l₁.map payNonHouse, p.isHouse = false := by
    intro p hp
    rcases List.mem_map.mp hp with ⟨q, hq, rfl⟩
    exact h₁ q hq
  have h₂' : ∀ p ∈ l₂.map payNonHouse, p.isHouse = false := by
    intro p hp
    rcases List.mem_map.mp hp with ⟨q, hq, rfl⟩
    exact h₂ q hq
  have hH' : ({ H with money := houseDelta s.players } : Player).isHouse = true := hH
  have hfind2 : (calculateMoney now s).1.players.find? (fun p => p.isHouse) =
      some { H with money := houseDelta s.players } := by
    rw [hs1p]
    exact find_house _ _ _ hH' h₁'
  have hmapside : l₁.map payNonHouse ++ l₂.map payNonHouse =
      (l₁ ++ l₂).map payNonHouse := by
    rw [List.map_append]
  have hbetnil' : (((l₁ ++ l₂).map payNonHouse).filter fun p => p.betAmount ≤ 0) = [] :=
    list_filter_none _ fun p hp => by
      rcases List.mem_map.mp hp with ⟨q, hq, rfl⟩
      have := hbet q hq
      simp only [decide_eq_false_iff_not]
      simp only [payNonHouse]
      omega
  have hresnil' : (((l₁ ++ l₂).map payNonHouse).filter fun p => p.result = none) = [] :=
    list_filter_none _ fun p hp => by
      rcases List.mem_map.mp hp with ⟨q, hq, rfl⟩
      simp [payNonHouse, hres q hq]
  have hbet0' : missingBetCount (calculateMoney now s).1.players = 0 := by
    rw [hs1p]
    unfold missingBetCount
    rw [filter_non_house _ _ _ hH' h₁' h₂', hmapside, hbetnil']
    rfl
  have hres0' : missingResultCount (calculateMoney now s).1.players = 0 := by
    rw [hs1p]
    unfold missingResultCount
    rw [filter_non_house _ _ _ hH' h₁' h₂', hmapside, hresnil']
    rfl
  have hcalc2 := xidach_calculateMoney_ok now' (calculateMoney now s).1 st
    { H with money := houseDelta s.players } hs1setup hfind2 hbet0' hres0'
  have hdelta2 : houseDelta (calculateMoney now s).1.players = houseDelta s.players := by
    rw [hs1p]
    rw [houseDelta_decomp _ _ _ hH' h₁' h₂']
    rw [hplayers0, houseDelta_decomp l₁ l₂ H hH h₁ h₂]
    rw [hmapside, filter_result_map_payNonHouse, filter_result_map_payNonHouse]
  have hNP2 : assignMoney (houseDelta (calculateMoney now s).1.players) false
      (calculateMoney now s).1.players = (calculateMoney now s).1.players := by
    rw [hdelta2, hs1p]
    rw [assignMoney_decomp _ _ _ _ hH' h₁' h₂']
    rw [xd_pay_map_idem, xd_pay_map_idem]
  refine ⟨by rw [hcalc1], by rw [hcalc2], ?_, ?_⟩
  · rw [hcalc2]
    rw [Game.commitRound_players]
    exact hNP2
  · rw [hcalc2]
    exact KachTe.commitRound_length_of_calculated now' st _ (calculateMoney now s).1
      ⟨hs1calc, hs1len⟩

end XiDach

/-- C5, counterexample: under the tiered rule with zero (falsy) bet
levels the settlement skips the money assignment, so each `calculate()`
adds the adjustments onto the stale money: the second `calculate()` (with
the calculated flag set and a non-empty ledger, inputs unchanged) does
replace the last round in place — the ledger length stays 1 — but player
1's money changes from 100 to 200, so the money values are NOT identical. -/
theorem c5_counterexample :
    (TienLen.calculateMoney 0 c5State).2 = none ∧
    (TienLen.calculateMoney 0 c5State).1.isCalculated = true ∧
    (TienLen.calculateMoney 0 c5State).1.gameHistory.length = 1 ∧
    (TienLen.calculateMoney 1 (TienLen.calculateMoney 0 c5State).1).2 = none ∧
    (TienLen.calculateMoney 1 (TienLen.calculateMoney 0 c5State).1).1.gameHistory.length = 1 ∧
    (TienLen.calculateMoney 0 c5State).1.players.map (fun p => p.money) = [100, 0, 0, 0] ∧
    (TienLen.calculateMoney 1 (TienLen.calculateMoney 0 c5State).1).1.players.map
      (fun p => p.money) = [200, 0, 0, 0] := by
  decide

/-- C5, amended (restricted, as the counterexample forces, to setups
whose tiered rule has nonzero bet levels — and stated under the
variant invariants: distinct positions for the tiered Ladder, exactly one
winner with fresh ids for Pot, exactly one banker with complete inputs
for Banker): in each of the three variants, invoking `calculateMoney` a
second time with unchanged inputs succeeds, replaces the last round in
place so the ledger length is unchanged, and leaves every player's money
(indeed the whole player list) identical to the first settlement. -/
theorem c5_amended :
    (∀ (s : TienLen.State) (st : TienLen.GameSetup) (now now' : Nat),
      s.setup = some st →
      (st.rule = .nhatAnBetNhiAnBa →
        (∃ x, st.betLevel1 = some x ∧ x ≠ 0) ∧
          (∃ y, st.betLevel2 = some y ∧ y ≠ 0) ∧
          (s.players.map fun p => p.position).Nodup) →
      (TienLen.calculateMoney now s).2 = none →
      (TienLen.calculateMoney now' (TienLen.calculateMoney now s).1).2 = none ∧
      (TienLen.calculateMoney now' (TienLen.calculateMoney now s).1).1.players =
        (TienLen.calculateMoney now s).1.players ∧
      (TienLen.calculateMoney now' (TienLen.calculateMoney now s).1).1.gameHistory.length =
        (TienLen.calculateMoney now s).1.gameHistory.length) ∧
    (∀ (st : KachTe.GameSetup) (l₁ l₂ : List KachTe.Player) (w : KachTe.Player)
      (hist : List KachTe.Round) (flag : Bool) (now now' : Nat) (s : KachTe.State),
      s = { setup := some st, players := l₁ ++ w :: l₂, gameHistory := hist,
            isCalculated := flag } →
      w.isWinner = true → w.winType.isSome = true →
      (∀ p ∈ l₁, p.isWinner = false ∧ p.id ≠ w.id) →
      (∀ p ∈ l₂, p.isWinner = false) →
      (KachTe.calculateMoney now s).2 = none ∧
      (KachTe.calculateMoney now' (KachTe.calculateMoney now s).1).2 = none ∧
      (KachTe.calculateMoney now' (KachTe.calculateMoney now s).1).1.players =
        (KachTe.calculateMoney now s).1.players ∧
      (KachTe.calculateMoney now' (KachTe.calculateMoney now s).1).1.gameHistory.length =
        (KachTe.calculateMoney now s).1.gameHistory.length) ∧
    (∀ (st : XiDach.GameSetup) (l₁ l₂ : List XiDach.Player) (H : XiDach.Player)
      (hist : List XiDach.Round) (flag : Bool) (now now' : Nat) (s : XiDach.State),
      s = { setup := some st, players := l₁ ++ H :: l₂, gameHistory := hist,
            isCalculated := flag } →
      H.isHouse = true →
      (∀ p ∈ l₁, p.isHouse = false) → (∀ p ∈ l₂, p.isHouse = false) →
      (∀ p ∈ l₁ ++ l₂, 0 < p.betAmount) → (∀ p ∈ l₁ ++ l₂, p.result ≠ none) →
      (XiDach.calculateMoney now s).2 = none ∧
      (XiDach.calculateMoney now' (XiDach.calculateMoney now s).1).2 = none ∧
      (XiDach.calculateMoney now' (XiDach.calculateMoney now s).1).1.players =
        (XiDach.calculateMoney now s).1.players ∧
      (XiDach.calculateMoney now' (XiDach.calculateMoney now s).1).1.gameHistory.length =
        (XiDach.calculateMoney now s).1.gameHistory.length) :=
  ⟨fun s st now now' h1 h2 h3 => TienLen.tl_recalc_idempotent s st now now' h1 h2 h3,
   fun st l₁ l₂ w hist flag now now' s hs hw hwt h₁ h₂ =>
     KachTe.kt_recalc_idempotent st l₁ l₂ w hist flag now now' s hs hw hwt h₁ h₂,
   fun st l₁ l₂ H hist flag now now' s hs hH h₁ h₂ hbet hres =>
     XiDach.xd_recalc_idempotent st l₁ l₂ H hist flag now now' s hs hH h₁ h₂ hbet hres⟩

/-- C5, witness: one concrete second-settlement per variant — in each the
second `calculateMoney` succeeds, leaves the players identical and the
ledger length unchanged. -/
theorem c5_witness :
    ((TienLen.calculateMoney 1 (TienLen.calculateMoney 0 c5wTL).1).2 = none ∧
     (TienLen.calculateMoney 1 (TienLen.calculateMoney 0 c5wTL).1).1.players =
       (TienLen.calculateMoney 0 c5wTL).1.players ∧
     (TienLen.calculateMoney 1 (TienLen.calculateMoney 0 c5wTL).1).1.gameHistory.length =
       (TienLen.calculateMoney 0 c5wTL).1.gameHistory.length) ∧
    ((KachTe.calculateMoney 1 (KachTe.calculateMoney 0 c5wKT).1).2 = none ∧
     (KachTe.calculateMoney 1 (KachTe.calculateMoney 0 c5wKT).1).1.players =
       (KachTe.calculateMoney 0 c5wKT).1.players ∧
     (KachTe.calculateMoney 1 (KachTe.calculateMoney 0 c5wKT).1).1.gameHistory.length =
       (KachTe.calculateMoney 0 c5wKT).1.gameHistory.length) ∧
    ((XiDach.calculateMoney 1 (XiDach.calculateMoney 0 c5wXD).1).2 = none ∧
     (XiDach.calculateMoney 1 (XiDach.calculateMoney 0 c5wXD).1).1.players =
       (XiDach.calculateMoney 0 c5wXD).1.players ∧
     (XiDach.calculateMoney 1 (XiDach.calculateMoney 0 c5wXD).1).1.gameHistory.length =
       (XiDach.calculateMoney 0 c5wXD).1.gameHistory.length) := by
  obtain ⟨htl, hkt, hxd⟩ := c5_amended
  refine ⟨htl c5wTL _ 0 1 rfl (fun h => absurd h (by decide)) (by decide), ?_, ?_⟩
  · have h := hkt { numberOfPlayers := 2, defaultBetAmount := 300, sapLangBetAmount := 900 }
      [] [c5wKTl] c5wKTw [] false 0 1 c5wKT rfl rfl rfl (by decide) (by decide)
    exact ⟨h.2.1, h.2.2.1, h.2.2.2⟩
  · have h := hxd { numberOfPlayers := 2, housePlayerId := 1 }
      [] [c5wXDp] c5wXDh [] false 0 1 c5wXD rfl rfl (by decide) (by decide)
      (by decide) (by decide)
    exact ⟨h.2.1, h.2.2.1, h.2.2.2⟩
